import Mathlib

/-!
Verification development for the Schedulify timetable optimizer
(`backend/app/services/genetic_algorithm.py`,
`backend/app/services/timetable_optimizer.py`,
`backend/app/utils/constraints_checker.py`).

Shallow-embedding conventions used throughout this file:

* Clock times ("HH:MM" strings in the genetic-algorithm module) are
  represented by their minute-of-day value (`Nat`).  For zero-padded
  strings below 24:00 the string order and equality used by the Python
  code agree with the numeric order, so nothing is lost.
* Python dictionaries (whose iteration order is insertion order) are
  represented by association lists in the same order.
* Python floats are represented by exact rationals (`ℚ` / `Rat`).
* Randomness (`random.choice`, `random.randint`, `random.sample`,
  acceptance coins) is made explicit: every random draw becomes an input
  of the embedded function, so an execution of the Python code
  corresponds to the Lean function applied to the trace of draws.
* Fallible Python code (`raise` / `try ... except`) is embedded with
  `Except`.
-/

namespace Schedulify

/-- A scheduled class cell, the dictionary stored in `timetable[day][slot]`
by `create_individual` / `_place_consecutive_lab` in
`genetic_algorithm.py` (fields `course_code`, `course_name`, `teacher`,
`type`, `room`, `lab_duration`, `session_part`, `is_consecutive`,
`total_duration`). -/
structure Session where
  courseCode : String
  courseName : String
  teacher : String
  type : String
  room : String
  labDuration : Nat
  sessionPart : String
  isConsecutive : Bool
  totalDuration : Nat
deriving DecidableEq, Repr

/-- A course specification (`Course` pydantic model in
`genetic_algorithm.py`). -/
structure Course where
  code : String
  name : String
  teacher : String
  lecturesPerWeek : Nat
  type : String
  duration : Nat
  labDuration : Nat
deriving DecidableEq, Repr

/-- The timetable encoding: day → (slot → optional Session), a dict of
dicts in the source.  Association lists keep the dict insertion order. -/
abbrev Timetable := List (String × List (Nat × Option Session))

/-- The relevant state of a `GeneticTimetableOptimizer` instance:
`self.courses`, `self.working_days`, `self.time_slots`. -/
structure OptCtx where
  courses : List Course
  workingDays : List String
  timeSlots : List Nat
deriving Repr

/-- First-match lookup in a day schedule (Python `day_schedule.get(slot)` /
`day_schedule[slot]`). -/
def lookupSlot : List (Nat × Option Session) → Nat → Option (Option Session)
  | [], _ => none
  | (t, c) :: rest, t' => if t = t' then some c else lookupSlot rest t'

/-- First-match lookup of a day in the timetable (Python `timetable[day]`). -/
def lookupDay : Timetable → String → Option (List (Nat × Option Session))
  | [], _ => none
  | (d, sch) :: rest, d' => if d = d' then some sch else lookupDay rest d'

/-- The content of cell `(day, slot)`; a missing key reads as an empty
cell (every timetable the engine builds is a total grid, so keys are
always present when the source indexes them). -/
def cellAt (tt : Timetable) (day : String) (slot : Nat) : Option Session :=
  ((lookupDay tt day).bind fun sch => lookupSlot sch slot).join

/-- Overwrite the value stored under the first occurrence of `slot`.
A missing key is a no-op (the source only ever writes to existing keys). -/
def setSlot : List (Nat × Option Session) → Nat → Option Session → List (Nat × Option Session)
  | [], _, _ => []
  | (t, c) :: rest, t', v => if t = t' then (t, v) :: rest else (t, c) :: setSlot rest t' v

/-- `timetable[day][slot] = v`. -/
def setCell : Timetable → String → Nat → Option Session → Timetable
  | [], _, _, _ => []
  | (d, sch) :: rest, d', t, v =>
      if d = d' then (d, setSlot sch t v) :: rest else (d, sch) :: setCell rest d' t v

/-- The `(day, slot)` pairs of the occupied cells, in iteration order —
the `all_slots` list built by `_mutate` (and by the annealing neighbor
generator). -/
def allSlots (tt : Timetable) : List (String × Nat) :=
  tt.foldr (fun p acc =>
    (p.2.filterMap fun q => if q.2.isSome then some (p.1, q.1) else none) ++ acc) []

/-- All stored sessions in iteration order (the `class_info` values the
fitness sub-checks loop over). -/
def occSessions (tt : Timetable) : List Session :=
  tt.foldr (fun p acc => p.2.filterMap (fun q => q.2) ++ acc) []

/-- The empty grid built at the top of `create_individual`: every
`(day, slot)` of the working-day / time-slot lists maps to `None`. -/
def emptyTimetable (ctx : OptCtx) : Timetable :=
  ctx.workingDays.map fun d => (d, ctx.timeSlots.map fun t => (t, (none : Option Session)))

/-! ### Slot-grid construction (`_generate_time_slots`) -/

/-- The scheduling-window configuration consumed by
`_generate_time_slots`: `start_time`, `end_time`, `lecture_duration`,
`lunch_start`, `lunch_end`, all as minutes of the day. -/
structure SlotConfig where
  startTime : Nat
  endTime : Nat
  duration : Nat
  lunchStart : Nat
  lunchEnd : Nat
deriving DecidableEq, Repr

/-- The `while current + duration <= end_minutes` loop of
`_generate_time_slots`.  `fuel` bounds the iteration count; with
`fuel = endTime + 1` it is never exhausted when `duration ≥ 1`. -/
def genSlotsAux (c : SlotConfig) : Nat → Nat → List Nat
  | 0, _ => []
  | fuel + 1, current =>
      if current + c.duration ≤ c.endTime then
        if c.lunchStart ≤ current ∧ current < c.lunchEnd then
          genSlotsAux c fuel (current + c.duration)
        else
          current :: genSlotsAux c fuel (current + c.duration)
      else []

/-- `_generate_time_slots`: step from `start_time` while the slot still
fits before `end_time`, skipping starts inside `[lunch_start, lunch_end)`.
The function is total and never raises: invalid windows simply yield a
short or empty list. -/
def generateTimeSlots (c : SlotConfig) : List Nat :=
  genSlotsAux c (c.endTime + 1) c.startTime

/-! ### The generational loop of `optimize` (claim C1)

Randomness and the population dynamics are abstracted into the input:
one run of `optimize` determines, for each executed generation, the list
`fitness_scores` of that generation's population.  The loop keeps
`best_fitness` (starting at 0), appends it to `convergence_history`
after the update, and finally returns it as `fitness_score`.  Early
stopping only truncates the sequence of generations, so quantifying over
an arbitrary list of generations covers every run. -/

/-- Python `max(fitness_scores)` for a nonempty list (the population is
never empty: `population_size ≥ 1`). -/
def listMax : List ℚ → ℚ
  | [] => 0
  | x :: xs => xs.foldl max x

/-- One generation's update of `best_fitness`
(`if max_fitness > best_fitness: best_fitness = max_fitness`). -/
def gaStep (best : ℚ) (scores : List ℚ) : ℚ :=
  if listMax scores > best then listMax scores else best

/-- The `convergence_history` produced by running the loop from a given
`best_fitness` over the per-generation score lists: the tracked best is
appended after each update. -/
def gaHistory (best : ℚ) : List (List ℚ) → List ℚ
  | [] => []
  | g :: gs => gaStep best g :: gaHistory (gaStep best g) gs

/-- The final `best_fitness` returned as `fitness_score` by `optimize`. -/
def gaFinal (best : ℚ) (gens : List (List ℚ)) : ℚ :=
  gens.foldl gaStep best

/-! ### Fitness evaluation (`calculate_fitness` and its sub-checks)

Python floats are modelled as exact rationals; the dictionaries used as
counters are modelled as association lists in insertion order. -/

/-- `counts[k] = counts.get(k, 0) + 1`: increment the first occurrence,
or append a fresh key at the end (dict insertion order). -/
def bump : List (String × Nat) → String → List (String × Nat)
  | [], k => [(k, 1)]
  | (k', n) :: rest, k => if k' = k then (k', n + 1) :: rest else (k', n) :: bump rest k

/-- `counts.get(k, 0)`. -/
def getCount : List (String × Nat) → String → Nat
  | [], _ => 0
  | (k', n) :: rest, k => if k' = k then n else getCount rest k

/-- Sum of all counter values (`sum(d.values())`). -/
def sumCounts (l : List (String × Nat)) : Nat := (l.map Prod.snd).sum

/-- Code-point comparison of strings, matching Python string `<`. -/
def charListLt : List Char → List Char → Bool
  | [], [] => false
  | [], _ :: _ => true
  | _ :: _, [] => false
  | a :: as, b :: bs =>
      if a.toNat < b.toNat then true
      else if b.toNat < a.toNat then false
      else charListLt as bs

/-- Python `a < b` on strings. -/
def strLtB (a b : String) : Bool := charListLt a.data b.data

/-- Stable ascending insertion used to model Python `sorted` on strings. -/
def insertStr (a : String) : List String → List String
  | [] => [a]
  | b :: rest => if strLtB b a then b :: insertStr a rest else a :: b :: rest

/-- Python `sorted` on a list of strings. -/
def sortStrings (l : List String) : List String := l.foldr insertStr []

/-- Stable ascending insertion used to model Python `sorted` on ints. -/
def insertNat (a : Nat) : List Nat → List Nat
  | [] => [a]
  | b :: rest => if b < a then b :: insertNat a rest else a :: b :: rest

/-- Python `sorted` on a list of minute values. -/
def sortNats (l : List Nat) : List Nat := l.foldr insertNat []

/-- First-match lookup in the per-slot teacher lists of
`_check_no_conflicts`. -/
def lookupNL : List (Nat × List String) → Nat → Option (List String)
  | [], _ => none
  | (k', v) :: rest, k => if k' = k then some v else lookupNL rest k

/-- Update-or-append for the per-slot teacher lists. -/
def setNL : List (Nat × List String) → Nat → List String → List (Nat × List String)
  | [], k, v => [(k, v)]
  | (k', v') :: rest, k, v =>
      if k' = k then (k', v) :: rest else (k', v') :: setNL rest k v

/-- First-match lookup in the per-slot room dictionaries of
`_check_no_conflicts`. -/
def lookupNR : List (Nat × List (String × Session)) → Nat → Option (List (String × Session))
  | [], _ => none
  | (k', v) :: rest, k => if k' = k then some v else lookupNR rest k

/-- Update-or-append for the per-slot room dictionaries. -/
def setNR : List (Nat × List (String × Session)) → Nat → List (String × Session) →
    List (Nat × List (String × Session))
  | [], k, v => [(k, v)]
  | (k', v') :: rest, k, v =>
      if k' = k then (k', v) :: rest else (k', v') :: setNR rest k v

/-- First-match lookup of a room in a per-slot room dictionary. -/
def lookupRoom : List (String × Session) → String → Option Session
  | [], _ => none
  | (k', v) :: rest, k => if k' = k then some v else lookupRoom rest k

/-- The per-day loop state of `_check_no_conflicts`: `teachers_at_time`,
`rooms_at_time` and the running score. -/
structure ConflictState where
  teachersAt : List (Nat × List String)
  roomsAt : List (Nat × List (String × Session))
  score : Int

/-- One `(time_slot, class_info)` step of `_check_no_conflicts`. -/
def conflictStep (st : ConflictState) (p : Nat × Option Session) : ConflictState :=
  match p.2 with
  | none => st
  | some ci =>
      let tlist := (lookupNL st.teachersAt p.1).getD []
      let st1 :=
        if ci.teacher ∈ tlist then
          { st with score := st.score - 200 }
        else
          { st with teachersAt := setNL st.teachersAt p.1 (tlist ++ [ci.teacher]),
                    score := st.score + 10 }
      let rlist := (lookupNR st1.roomsAt p.1).getD []
      match lookupRoom rlist ci.room with
      | some ex =>
          if ci.courseCode = ex.courseCode ∧ ci.type = "lab" ∧ ex.type = "lab" ∧
              ci.isConsecutive = true ∧ ex.isConsecutive = true then
            { st1 with score := st1.score + 5 }
          else
            { st1 with score := st1.score - 150 }
      | none =>
          { st1 with roomsAt := setNR st1.roomsAt p.1 (rlist ++ [(ci.room, ci)]),
                     score := st1.score + 5 }

/-- `_check_no_conflicts`: fresh dictionaries per day, one running score
across all days. -/
def checkNoConflicts (tt : Timetable) : Int :=
  tt.foldl (fun sc p => sc + (p.2.foldl conflictStep ⟨[], [], 0⟩).score) 0

/-- `_check_consecutive_lab_placement`. -/
def checkConsecLab (ctx : OptCtx) (tt : Timetable) : Int :=
  ctx.workingDays.foldl (fun sc day =>
    ctx.timeSlots.enum.foldl (fun sc2 iq =>
      match cellAt tt day iq.2 with
      | none => sc2
      | some ci =>
          if ci.type = "lab" then
            if ci.isConsecutive = true ∧ 1 < ci.totalDuration then
              if ci.sessionPart = "1/" ++ toString ci.totalDuration then
                if (List.range ci.totalDuration).all (fun j =>
                      match ctx.timeSlots.get? (iq.1 + j) with
                      | none => false
                      | some slot2 =>
                          match cellAt tt day slot2 with
                          | none => false
                          | some cj =>
                              decide (cj.courseCode = ci.courseCode ∧
                                cj.teacher = ci.teacher ∧ cj.type = "lab")) then
                  sc2 + 200
                else sc2 - 100
              else sc2
            else if 1 < ci.totalDuration ∧ ci.isConsecutive = false then sc2 - 150
            else sc2 + 10
          else sc2) sc) 0

/-- The `teacher_hours` counter of `_check_teacher_workload`. -/
def teacherHours (tt : Timetable) : List (String × Nat) :=
  (occSessions tt).foldl (fun l s => bump l s.teacher) []

/-- `_check_teacher_workload` (the float `avg_hours * 1.2` is modelled as
the exact rational `avg * 6/5`). -/
def checkTeacherWorkload (tt : Timetable) : ℚ :=
  let th := teacherHours tt
  if th.isEmpty then 0
  else
    let avg : ℚ := (sumCounts th : ℚ) / (th.length : ℚ)
    th.foldl (fun sc p => if (p.2 : ℚ) ≤ avg * (6 / 5) then sc + 20 else sc - 10) 0

/-- The `room_usage` counter of `_check_room_utilization`. -/
def roomUsage (tt : Timetable) : List (String × Nat) :=
  (occSessions tt).foldl (fun l s => bump l s.room) []

/-- `_check_room_utilization` (floats `0.1`/`0.4` modelled as exact
rationals). -/
def checkRoomUtilization (tt : Timetable) : ℚ :=
  let ru := roomUsage tt
  if ru.isEmpty then 0
  else
    let total : ℚ := (sumCounts ru : ℚ)
    ru.foldl (fun sc p =>
      if (1 / 10 : ℚ) ≤ (p.2 : ℚ) / total ∧ (p.2 : ℚ) / total ≤ (2 / 5 : ℚ) then sc + 15
      else sc) 0

/-- The `course_counts` counter of `_check_course_completion`. -/
def courseCounts (tt : Timetable) : List (String × Nat) :=
  (occSessions tt).foldl (fun l s => bump l s.courseCode) []

/-- `_check_course_completion`. -/
def checkCourseCompletion (ctx : OptCtx) (tt : Timetable) : ℚ :=
  let cc := courseCounts tt
  ctx.courses.foldl (fun sc course =>
    let scheduled := getCount cc course.code
    let required := course.lecturesPerWeek
    if scheduled = required then sc + 100
    else if required < scheduled then sc + (50 - ((scheduled : ℚ) - (required : ℚ)) * 10)
    else sc + ((scheduled : ℚ) / (required : ℚ)) * 80) 0

/-- The cache-free fitness computation inside `calculate_fitness`:
base 1000 plus the five weighted sub-scores, floored at 0. -/
def fitnessRaw (ctx : OptCtx) (tt : Timetable) : ℚ :=
  max 0 (1000 + (checkNoConflicts tt : ℚ) * 500 + (checkConsecLab ctx tt : ℚ) * 800 +
    checkCourseCompletion ctx tt * 600 + checkTeacherWorkload tt * 300 +
    checkRoomUtilization tt * 200)

/-- The cache key produced by `_hash_timetable`: the `(day, time_slot,
course_code, teacher, room)` tuples of the occupied cells, in sorted
day/slot order.  Note that `type`, `is_consecutive`, `session_part` and
`total_duration` are *not* part of the key. -/
def hashTimetable (ctx : OptCtx) (tt : Timetable) : List (String × Nat × String × String × String) :=
  (sortStrings ctx.workingDays).flatMap fun day =>
    (sortNats ctx.timeSlots).filterMap fun slot =>
      match cellAt tt day slot with
      | some ci => some (day, slot, ci.courseCode, ci.teacher, ci.room)
      | none => none

/-- The `self.fitness_cache` dictionary. -/
abbrev Cache := List (List (String × Nat × String × String × String) × ℚ)

/-- Dictionary lookup in the fitness cache. -/
def lookupHash : Cache → List (String × Nat × String × String × String) → Option ℚ
  | [], _ => none
  | (k', v) :: rest, k => if k' = k then some v else lookupHash rest k

/-- `calculate_fitness`: consult the cache under the timetable's hash,
otherwise compute `fitnessRaw` and memoise it. -/
def calculateFitness (ctx : OptCtx) (cache : Cache) (tt : Timetable) : ℚ × Cache :=
  match lookupHash cache (hashTimetable ctx tt) with
  | some v => (v, cache)
  | none => (fitnessRaw ctx tt, (hashTimetable ctx tt, fitnessRaw ctx tt) :: cache)

/-- The cache state after a run has evaluated the given timetables in
order, starting from the empty cache of `__init__`. -/
def evalHistory (ctx : OptCtx) (tts : List Timetable) : Cache :=
  tts.foldl (fun c t => (calculateFitness ctx c t).2) []

/-- A concrete optimizer context: one course `C1` (1 lecture/week),
one working day, a two-slot grid (09:00, 09:45). -/
def ctx3 : OptCtx :=
  ⟨[⟨"C1", "Course One", "T", 1, "lecture", 45, 2⟩], ["Mon"], [540, 585]⟩

/-- A lab-typed session of `C1` marked as a broken multi-slot lab
(`total_duration = 2`, `is_consecutive = false`). -/
def sess3a : Session := ⟨"C1", "Course One", "T", "lab", "Lab 1", 2, "1/2", false, 2⟩

/-- The same cell content except `type = "lecture"` — identical in every
field the `_hash_timetable` key records. -/
def sess3b : Session := { sess3a with type := "lecture" }

/-- Timetable with the lab-typed session in the first slot. -/
def t3a : Timetable := [("Mon", [(540, some sess3a), (585, none)])]

/-- Timetable with the lecture-typed session in the first slot. -/
def t3b : Timetable := [("Mon", [(540, some sess3b), (585, none)])]

/-- Every cache entry records the hash and raw fitness of some
previously evaluated timetable. -/
def CacheSound (ctx : OptCtx) (hist : List Timetable) (cache : Cache) : Prop :=
  ∀ e ∈ cache, ∃ t ∈ hist, e.1 = hashTimetable ctx t ∧ e.2 = fitnessRaw ctx t

/-! ### Simulated annealing (`_simulated_annealing` and the refinement
phase of `_hybrid_algorithm` in `timetable_optimizer.py`)

The input trace `moves` is the sequence of neighbor timetables produced
by `_generate_neighbor_solution` (a random draw, hence an input); the
fitness function `f` is a parameter, instantiated with the engine's
evaluator.  An improving neighbor is accepted unconditionally.  For a
non-improving neighbor both loops evaluate
`probability = random.exp(delta / temperature)` — but the `random`
module has no `exp` attribute, so this line raises `AttributeError` and
the whole phase aborts: the accept-with-probability branch is an error
path, embedded as `Except.error`.  The temperature / iteration
bookkeeping never influences which branch runs, so it is not part of
the state. -/

/-- The loop state of `_simulated_annealing`: `current_solution`,
`current_fitness`, `best_solution`, `best_fitness`. -/
structure SAState where
  current : Timetable
  currentFit : ℚ
  best : Timetable
  bestFit : ℚ

/-- One inner iteration of `_simulated_annealing`: an improving neighbor
is accepted, updating the best-ever memory; a non-improving neighbor
reaches the `random.exp` call, which raises `AttributeError`. -/
def saStep (f : Timetable → ℚ) (s : SAState) (mv : Timetable) : Except String SAState :=
  let nf := f mv
  if s.currentFit < nf then
    Except.ok (if s.bestFit < nf then ⟨mv, nf, mv, nf⟩ else ⟨mv, nf, s.best, s.bestFit⟩)
  else Except.error "AttributeError: module random has no attribute exp"

/-- The iteration loop of `_simulated_annealing` from a given state:
stop at the end of the cooling schedule, or propagate the
`AttributeError` of the first non-improving neighbor. -/
def saRunFrom (f : Timetable → ℚ) (s : SAState) : List Timetable → Except String SAState
  | [] => Except.ok s
  | mv :: rest =>
      match saStep f s mv with
      | Except.ok s2 => saRunFrom f s2 rest
      | Except.error e => Except.error e

/-- `_simulated_annealing` from its seed (the small-GA result) over the
trace of generated neighbors; on normal termination the function
returns `best_solution` / `best_fitness`. -/
def saRun (f : Timetable → ℚ) (seed : Timetable) (seedFit : ℚ)
    (moves : List Timetable) : Except String SAState :=
  saRunFrom f ⟨seed, seedFit, seed, seedFit⟩ moves

/-- The loop state of the annealing phase of `_hybrid_algorithm`: it
keeps only `current_solution` / `current_fitness` — there is no
best-ever memory in this phase. -/
structure HState where
  current : Timetable
  currentFit : ℚ

/-- One inner iteration of the `_hybrid_algorithm` annealing phase:
same structure as `saStep`, without the best-ever memory, and with the
same `AttributeError` on a non-improving neighbor. -/
def hybridStep (f : Timetable → ℚ) (s : HState) (mv : Timetable) : Except String HState :=
  let nf := f mv
  if s.currentFit < nf then Except.ok ⟨mv, nf⟩
  else Except.error "AttributeError: module random has no attribute exp"

/-- The iteration loop of the `_hybrid_algorithm` annealing phase. -/
def hybridRunFrom (f : Timetable → ℚ) (s : HState) : List Timetable → Except String HState
  | [] => Except.ok s
  | mv :: rest =>
      match hybridStep f s mv with
      | Except.ok s2 => hybridRunFrom f s2 rest
      | Except.error e => Except.error e

/-- The `_hybrid_algorithm` annealing phase from the GA seed; on normal
termination the function returns `current_solution` /
`current_fitness`. -/
def hybridRun (f : Timetable → ℚ) (seed : Timetable) (seedFit : ℚ)
    (moves : List Timetable) : Except String HState :=
  hybridRunFrom f ⟨seed, seedFit⟩ moves

/-- The fully empty two-slot timetable over `ctx3`. -/
def t3e : Timetable := [("Mon", [(540, none), (585, none)])]

/-! ### Greedy initialization (`create_individual`), crossover, mutation
and annealing neighbor moves

Random draws are explicit inputs: each lab / lecture session request
carries the trace of `(day, slot)` candidates that `random.choice` /
`random.randint` produced for it (the attempt budget — 50 for labs, 30
for lectures — bounds the trace length), and `_mutate`'s coin and
sampled cell pair are arguments. -/

/-- `self._is_lunch_time(t)` (string comparison on zero-padded "HH:MM"
strings agrees with the numeric comparison on minutes). -/
def isLunchTime (lunchStart lunchEnd slot : Nat) : Bool :=
  decide (lunchStart ≤ slot ∧ slot < lunchEnd)

/-- The teacher look-ahead across days: some working day has this
teacher occupying the given slot. -/
def teacherBusyAt (ctx : OptCtx) (tt : Timetable) (slot : Nat) (teacher : String) : Bool :=
  ctx.workingDays.any fun od =>
    match cellAt tt od slot with
    | some s => s.teacher == teacher
    | none => false

/-- `_can_place_consecutive_lab`. -/
def canPlaceConsecutiveLab (ctx : OptCtx) (tt : Timetable) (day : String)
    (startIdx labDur : Nat) (teacher : String) : Bool :=
  if ctx.timeSlots.length < startIdx + labDur then false
  else (List.range labDur).all fun i =>
    match ctx.timeSlots.get? (startIdx + i) with
    | none => false
    | some slot => (cellAt tt day slot).isNone && !(teacherBusyAt ctx tt slot teacher)

/-- `_place_consecutive_lab`: write the lab into `labDur` consecutive
slots, tagging each part `i+1/labDur` with `is_consecutive = True`. -/
def placeConsecutiveLab (ctx : OptCtx) (tt : Timetable) (day : String)
    (startIdx labDur : Nat) (info : Session) : Timetable :=
  (List.range labDur).foldl (fun t i =>
    match ctx.timeSlots.get? (startIdx + i) with
    | none => t
    | some slot =>
        setCell t day slot (some { info with
          sessionPart := toString (i + 1) ++ "/" ++ toString labDur,
          isConsecutive := true,
          totalDuration := labDur })) tt

/-- The per-lab `while not placed and attempts < max_attempts` loop of
`create_individual`: try the random candidates in order; once one
passes `_can_place_consecutive_lab` place the lab there; if the whole
budgeted trace fails, the loop simply ends and the timetable is
returned unchanged — the request is dropped. -/
def placeLabReq (ctx : OptCtx) (tt : Timetable) (info : Session) :
    List (String × Nat) → Timetable
  | [] => tt
  | (day, idx) :: rest =>
      if canPlaceConsecutiveLab ctx tt day idx info.labDuration info.teacher then
        placeConsecutiveLab ctx tt day idx info.labDuration info
      else placeLabReq ctx tt info rest

/-- The lab phase of `create_individual` (labs placed first). -/
def placeLabs (ctx : OptCtx) (tt : Timetable)
    (reqs : List (Session × List (String × Nat))) : Timetable :=
  reqs.foldl (fun t r => placeLabReq ctx t r.1 r.2) tt

/-- The per-lecture attempt loop of `create_individual`: place in the
first candidate `(day, slot)` that is empty and teacher-conflict-free,
tagging the session `1/1`, non-consecutive. -/
def placeLectureReq (ctx : OptCtx) (tt : Timetable) (info : Session) :
    List (String × Nat) → Timetable
  | [] => tt
  | (day, slot) :: rest =>
      if (cellAt tt day slot).isNone && !(teacherBusyAt ctx tt slot info.teacher) then
        setCell tt day slot (some { info with
          sessionPart := "1/1", isConsecutive := false, totalDuration := 1 })
      else placeLectureReq ctx tt info rest

/-- The lecture phase of `create_individual`. -/
def placeLectures (ctx : OptCtx) (tt : Timetable)
    (reqs : List (Session × List (String × Nat))) : Timetable :=
  reqs.foldl (fun t r => placeLectureReq ctx t r.1 r.2) tt

/-- `create_individual`: empty grid, then labs, then lectures.  The
expansion of courses into session requests (with their random room
strings) and the random candidate draws are inputs. -/
def createIndividual (ctx : OptCtx) (labReqs lecReqs : List (Session × List (String × Nat))) :
    Timetable :=
  placeLectures ctx (placeLabs ctx (emptyTimetable ctx) labReqs) lecReqs

/-- `_crossover`: the child copies each day wholesale from parent 1
before the random split index and from parent 2 from it onward. -/
def crossover (ctx : OptCtx) (splitIdx : Nat) (p1 p2 : Timetable) : Timetable :=
  ctx.workingDays.enum.map fun iq =>
    (iq.2, ctx.timeSlots.map fun t =>
      (t, if iq.1 < splitIdx then cellAt p1 iq.2 t else cellAt p2 iq.2 t))

/-- Python truthiness of
`not class or not class.get('is_consecutive')`. -/
def nonConsecCell : Option Session → Bool
  | none => true
  | some s => !s.isConsecutive

/-- `_mutate`: with the coin set and at least two occupied cells, swap
the sampled pair of occupied cells unless either holds a
consecutive-tagged session.  `c1, c2` are the two cells drawn by
`random.sample(all_slots, 2)`. -/
def mutate (tt : Timetable) (coin : Bool) (c1 c2 : String × Nat) : Timetable :=
  if coin && decide (2 ≤ (allSlots tt).length) then
    let v1 := cellAt tt c1.1 c1.2
    let v2 := cellAt tt c2.1 c2.2
    if nonConsecCell v1 && nonConsecCell v2 then
      setCell (setCell tt c1.1 c1.2 v2) c2.1 c2.2 v1
    else tt
  else tt

/-- The modification drawn by `_generate_neighbor_solution` in
`timetable_optimizer.py` (the choice among the three kinds and the cell
draws are random). -/
inductive NeighborMove where
  | swapTimeSlots (day : String) (t1 t2 : Nat)
  | moveClass (srcDay : String) (srcSlot : Nat) (dstDay : String) (dstSlot : Nat)
  | swapClasses (d1 : String) (t1 : Nat) (d2 : String) (t2 : Nat)

/-- `_generate_neighbor_solution`: apply the drawn modification to a
copy of the solution. -/
def generateNeighbor (tt : Timetable) (mv : NeighborMove) : Timetable :=
  match mv with
  | .swapTimeSlots day t1 t2 =>
      let v1 := cellAt tt day t1
      let v2 := cellAt tt day t2
      setCell (setCell tt day t1 v2) day t2 v1
  | .moveClass sd st dd dt =>
      let ci := cellAt tt sd st
      setCell (setCell tt sd st none) dd dt ci
  | .swapClasses d1 t1 d2 t2 =>
      let v1 := cellAt tt d1 t1
      let v2 := cellAt tt d2 t2
      setCell (setCell tt d1 t1 v2) d2 t2 v1

/-- Well-formedness every Python dict-of-dicts timetable has by
construction: day keys are distinct, and slot keys are distinct within
each day. -/
def WF (tt : Timetable) : Prop :=
  (tt.map Prod.fst).Nodup ∧ ∀ p ∈ tt, (p.2.map Prod.fst).Nodup

instance (tt : Timetable) : Decidable (WF tt) := by
  unfold WF; infer_instance

/-- All slot keys of the timetable lie in the given grid. -/
def SlotKeysIn (tt : Timetable) (slots : List Nat) : Prop :=
  ∀ p ∈ tt, ∀ q ∈ p.2, q.1 ∈ slots

/-! ### Constraint checker (`constraints_checker.py`)

The checker operates on the raw timetable dicts, whose slot keys are the
"HH:MM" strings themselves (they are *parsed*, so here slots stay
`String`).  Constraint objects are loosely typed in the source (§ the
pydantic base `Constraint` carries only `type`/`description`/
`is_active`; the typed subclasses add fields, and stored constraint sets
can deserialize to the base class), so checker methods can hit
`AttributeError` on a missing parameter: parameters that the typed
models make required are `Option`-valued here, and reading an absent one
aborts the checker with an error — the embedding of the
`try/except Exception` in `check_constraint`.  List-valued parameters
default to `[]` as in the typed models.  The `custom` constraint type
(free-text regex matching) is outside the claims and not modelled. -/

/-- Timetable as seen by the checker: day → ("HH:MM" → optional Session). -/
abbrev CTimetable := List (String × List (String × Option Session))

/-- The constraint types dispatched by `check_constraint`. -/
inductive CType where
  | teacherAvailability
  | roomAvailability
  | timeRestriction
  | consecutiveClasses
  | workloadLimit
  | lunchBreak
deriving DecidableEq, Repr

/-- A constraint record with the union of the parameter fields the
checker probes; `none` models an absent attribute. -/
structure CRec where
  ctype : CType
  description : String
  isActive : Bool
  teacherName : Option String := none
  roomName : Option String := none
  courseCode : Option String := none
  unavailableDays : List String := []
  unavailableTimes : List String := []
  restrictedDays : List String := []
  restrictedTimes : List String := []
  maxHoursPerDay : Option Nat := none
  maxClassesPerDay : Option Nat := none
  maxClassesPerWeek : Option Nat := none
  startTime : Option String := none
  endTime : Option String := none
  exceptions : List String := []
  mustBeConsecutive : Option Bool := none
  maxGapBetweenClasses : Option Nat := none
deriving Repr

/-- Attribute access on a loosely-typed record: absent → AttributeError. -/
def getAttr {α : Type} : Option α → Except String α
  | some a => Except.ok a
  | none => Except.error "AttributeError"

/-- Python `time_str.split(':')` on the character list. -/
def splitOnColon : List Char → List (List Char)
  | [] => [[]]
  | c :: rest =>
      let r := splitOnColon rest
      if c = ':' then [] :: r
      else
        match r with
        | [] => [[c]]
        | g :: gs => (c :: g) :: gs

/-- Python `int(...)` on a digit string (signs and surrounding
whitespace, which `int` would also accept, do not occur in time
strings and are not modelled). -/
def parseNatChars (cs : List Char) : Option Nat :=
  if cs.isEmpty then none
  else if cs.all (fun c => c.isDigit) then
    some (cs.foldl (fun n c => n * 10 + (c.toNat - 48)) 0)
  else none

/-- `_time_to_minutes`: "HH:MM" → minutes since midnight; any parse
failure (wrong number of `:`-separated parts, non-numeric part) is
swallowed by the `except` clause and becomes 0. -/
def timeToMinutes (s : String) : Nat :=
  match splitOnColon s.data with
  | [h, m] =>
      match parseNatChars h, parseNatChars m with
      | some hh, some mm => hh * 60 + mm
      | _, _ => 0
  | _ => 0

/-- First-match lookup in a checker day schedule
(`day_schedule.get(time_slot)`). -/
def lookupSlotS : List (String × Option Session) → String → Option (Option Session)
  | [], _ => none
  | (t, c) :: rest, t' => if t = t' then some c else lookupSlotS rest t'

/-- `_check_teacher_availability`. -/
def checkTeacherAvailability (tt : CTimetable) (c : CRec) : Except String (List String) := do
  let tn ← getAttr c.teacherName
  let tnl := tn.toLower
  return tt.foldl (fun vs dp =>
    let vs1 :=
      if dp.1 ∈ c.unavailableDays then
        vs ++ dp.2.filterMap (fun q =>
          match q.2 with
          | some ci =>
              if ci.teacher.toLower = tnl then
                some ("Teacher " ++ tn ++ " scheduled on unavailable day " ++ dp.1 ++
                  " at " ++ q.1)
              else none
          | none => none)
      else vs
    let vs2 := vs1 ++ c.unavailableTimes.filterMap (fun t =>
      match lookupSlotS dp.2 t with
      | some (some ci) =>
          if ci.teacher.toLower = tnl then
            some ("Teacher " ++ tn ++ " scheduled at unavailable time " ++ dp.1 ++ " " ++ t)
          else none
      | _ => none)
    match c.maxHoursPerDay with
    | some mx =>
        let daily := dp.2.countP (fun q =>
          match q.2 with
          | some ci => ci.teacher.toLower == tnl
          | none => false)
        if mx ≠ 0 ∧ mx < daily then
          vs2 ++ ["Teacher " ++ tn ++ " exceeds daily limit on " ++ dp.1]
        else vs2
    | none => vs2) []

/-- `_check_room_availability`. -/
def checkRoomAvailability (tt : CTimetable) (c : CRec) : Except String (List String) := do
  let rn ← getAttr c.roomName
  return tt.foldl (fun vs dp =>
    let vs1 :=
      if dp.1 ∈ c.unavailableDays then
        vs ++ dp.2.filterMap (fun q =>
          match q.2 with
          | some ci =>
              if ci.room = rn then
                some ("Room " ++ rn ++ " scheduled on unavailable day " ++ dp.1 ++
                  " at " ++ q.1)
              else none
          | none => none)
      else vs
    vs1 ++ c.unavailableTimes.filterMap (fun t =>
      match lookupSlotS dp.2 t with
      | some (some ci) =>
          if ci.room = rn then
            some ("Room " ++ rn ++ " scheduled at unavailable time " ++ dp.1 ++ " " ++ t)
          else none
      | _ => none)) []

/-- `_check_time_restriction`. -/
def checkTimeRestriction (tt : CTimetable) (c : CRec) : Except String (List String) := do
  let code ← getAttr c.courseCode
  return tt.foldl (fun vs dp =>
    let vs1 :=
      if dp.1 ∈ c.restrictedDays then
        vs ++ dp.2.filterMap (fun q =>
          match q.2 with
          | some ci =>
              if ci.courseCode = code then
                some ("Course " ++ code ++ " scheduled on restricted day " ++ dp.1 ++
                  " at " ++ q.1)
              else none
          | none => none)
      else vs
    vs1 ++ c.restrictedTimes.filterMap (fun t =>
      match lookupSlotS dp.2 t with
      | some (some ci) =>
          if ci.courseCode = code then
            some ("Course " ++ code ++ " scheduled at restricted time " ++ dp.1 ++ " " ++ t)
          else none
      | _ => none)) []

/-- `_check_workload_limit`. -/
def checkWorkloadLimit (tt : CTimetable) (c : CRec) : Except String (List String) := do
  let tn ← getAttr c.teacherName
  let mxd ← getAttr c.maxClassesPerDay
  let mxw ← getAttr c.maxClassesPerWeek
  let tnl := tn.toLower
  let hits := fun (cell : Option Session) =>
    match cell with
    | some ci => tn == "*" || ci.teacher.toLower == tnl
    | none => false
  let dailyViol := tt.foldl (fun vs dp =>
    let daily := dp.2.countP (fun q => hits q.2)
    if mxd < daily then
      vs ++ ["Teacher " ++ tn ++ " exceeds daily limit on " ++ dp.1]
    else vs) []
  let weekly := tt.foldl (fun n dp => n + dp.2.countP (fun q => hits q.2)) 0
  if mxw < weekly then
    return dailyViol ++ ["Teacher " ++ tn ++ " exceeds weekly limit"]
  else
    return dailyViol

/-- `_check_lunch_break`. -/
def checkLunchBreak (tt : CTimetable) (c : CRec) : Except String (List String) := do
  let st ← getAttr c.startTime
  let et ← getAttr c.endTime
  let lunchS := timeToMinutes st
  let lunchE := timeToMinutes et
  return tt.foldl (fun vs dp =>
    vs ++ dp.2.filterMap (fun q =>
      match q.2 with
      | some ci =>
          if lunchS ≤ timeToMinutes q.1 ∧ timeToMinutes q.1 < lunchE then
            if ci.teacher ∉ c.exceptions ∧ ci.room ∉ c.exceptions then
              some ("Class scheduled during lunch break: " ++ dp.1 ++ " " ++ q.1 ++
                " - " ++ ci.courseCode)
            else none
          else none
      | none => none)) []

/-- Gaps between successive (sorted) start times, as in the
`course_slots[i + 1] - course_slots[i]` loop. -/
def pairGaps : List Nat → List Nat
  | a :: b :: rest => (b - a) :: pairGaps (b :: rest)
  | _ => []

/-- `_check_consecutive_classes` (`expected_gap` is the hard-coded 45). -/
def checkConsecutiveClasses (tt : CTimetable) (c : CRec) : Except String (List String) := do
  let code ← getAttr c.courseCode
  let mbc ← getAttr c.mustBeConsecutive
  let mgap ← getAttr c.maxGapBetweenClasses
  return tt.foldl (fun vs dp =>
    let slots := dp.2.filterMap (fun q =>
      match q.2 with
      | some ci => if ci.courseCode = code then some (timeToMinutes q.1) else none
      | none => none)
    if 1 < slots.length then
      vs ++ (pairGaps (sortNats slots)).filterMap (fun g =>
        if mbc then
          if g ≠ 45 then
            some ("Course " ++ code ++ " classes not consecutive on " ++ dp.1)
          else none
        else
          if mgap * 45 < g then
            some ("Course " ++ code ++ " classes have excessive gap on " ++ dp.1)
          else none)
    else vs) []

/-- The `checker_methods` dispatch of `check_constraint`, with the body
run under the `try`. -/
def runChecker (tt : CTimetable) (c : CRec) : Except String (List String) :=
  match c.ctype with
  | .teacherAvailability => checkTeacherAvailability tt c
  | .roomAvailability => checkRoomAvailability tt c
  | .timeRestriction => checkTimeRestriction tt c
  | .consecutiveClasses => checkConsecutiveClasses tt c
  | .workloadLimit => checkWorkloadLimit tt c
  | .lunchBreak => checkLunchBreak tt c

/-- `check_constraint`: any exception in the dispatched checker is
caught, logged and replaced by the single message
`"Error checking constraint: <description>"`. -/
def checkConstraint (tt : CTimetable) (c : CRec) : List String :=
  match runChecker tt c with
  | .ok msgs => msgs
  | .error _ => ["Error checking constraint: " ++ c.description]

/-- `check_all_constraints`: skip inactive constraints, extend the
violation list with each active constraint's result. -/
def checkAllConstraints (tt : CTimetable) (cs : List CRec) : List String :=
  cs.foldl (fun vs c => if c.isActive then vs ++ checkConstraint tt c else vs) []

def ctx5 : OptCtx := ⟨[], ["Mon"], [540, 585, 630]⟩

def lab5a : Session := ⟨"L1", "Lab One", "T", "lab", "Lab 1", 2, "", false, 1⟩

def lab5b : Session := ⟨"L2", "Lab Two", "T", "lab", "Lab 1", 2, "", false, 1⟩

def labs5 : List (Session × List (String × Nat)) :=
  [(lab5a, [("Mon", 0)]),
   (lab5b, List.replicate 25 ("Mon", 0) ++ List.replicate 25 ("Mon", 1))]

def result5 : Timetable := createIndividual ctx5 labs5 []

def tt5a : Timetable := placeLabReq ctx5 (emptyTimetable ctx5) lab5a [("Mon", 0)]

def sess6a : Session := ⟨"A", "A", "TA", "lecture", "Room 1", 1, "1/1", false, 1⟩

def sess6b : Session := ⟨"B", "B", "TB", "lecture", "Room 2", 1, "1/1", false, 1⟩

def sess6c : Session := ⟨"C", "C", "TC", "lab", "Lab 1", 2, "1/2", true, 2⟩

def tt6 : Timetable :=
  [("Mon", [(540, some sess6a), (585, some sess6b), (630, some sess6c)])]

def cfg7 : SlotConfig := ⟨540, 720, 45, 630, 660⟩

def ctx7 : OptCtx := ⟨[], ["Mon"], generateTimeSlots cfg7⟩

def lec7 : Session := ⟨"CS101", "Intro", "A", "lecture", "Room 1", 1, "", false, 1⟩

/-- The per-course completion formula exactly as the claim states it:
+100 on exact match, `50 − 10×excess` on over-scheduling, and
`80 × scheduled/required` on under-scheduling. -/
def completionTermSpec (scheduled required : Nat) : ℚ :=
  if scheduled = required then 100
  else if required < scheduled then 50 - ((scheduled : ℚ) - (required : ℚ)) * 10
  else ((scheduled : ℚ) / (required : ℚ)) * 80

def c9bad : CRec :=
  { ctype := CType.teacherAvailability, description := "Dr. X not available on Monday",
    isActive := true }

def sess9 : Session :=
  ⟨"CS101", "Intro", "Dr. Smith", "lecture", "Room 1", 1, "1/1", false, 1⟩

def tt9 : CTimetable := [("Monday", [("09:00", some sess9)])]

def lunch9 : CRec :=
  { ctype := CType.lunchBreak, description := "Lunch break", isActive := true,
    startTime := some "noon", endTime := some "one pm" }

/-- Soundness of the grid loop: every slot it emits is a whole number of
`duration` steps above the running start, still fits before `endTime`,
and does not start inside the lunch window. -/
theorem genSlotsAux_sound (c : SlotConfig) :
    ∀ fuel cur s, s ∈ genSlotsAux c fuel cur →
      (∃ k, s = cur + k * c.duration) ∧ s + c.duration ≤ c.endTime ∧
        ¬(c.lunchStart ≤ s ∧ s < c.lunchEnd) := by
  intro fuel
  induction fuel with
  | zero => intro cur s hs; simp [genSlotsAux] at hs
  | succ f ih =>
      intro cur s hs
      simp only [genSlotsAux] at hs
      by_cases hfits : cur + c.duration ≤ c.endTime
      · rw [if_pos hfits] at hs
        by_cases hlunch : c.lunchStart ≤ cur ∧ cur < c.lunchEnd
        · rw [if_pos hlunch] at hs
          obtain ⟨⟨k, hk⟩, h2, h3⟩ := ih (cur + c.duration) s hs
          exact ⟨⟨k + 1, by rw [hk, Nat.succ_mul]; ring⟩, h2, h3⟩
        · rw [if_neg hlunch] at hs
          rcases List.mem_cons.mp hs with h | h
          · subst h
            exact ⟨⟨0, by omega⟩, hfits, hlunch⟩
          · obtain ⟨⟨k, hk⟩, h2, h3⟩ := ih (cur + c.duration) s h
            exact ⟨⟨k + 1, by rw [hk, Nat.succ_mul]; ring⟩, h2, h3⟩
      · rw [if_neg hfits] at hs
        simp at hs

/-- Completeness of the grid loop: any step that fits before `endTime`
and avoids the lunch window is emitted, provided enough fuel. -/
theorem genSlotsAux_complete (c : SlotConfig) :
    ∀ k fuel cur, k < fuel → cur + k * c.duration + c.duration ≤ c.endTime →
      ¬(c.lunchStart ≤ cur + k * c.duration ∧ cur + k * c.duration < c.lunchEnd) →
      cur + k * c.duration ∈ genSlotsAux c fuel cur := by
  intro k
  induction k with
  | zero =>
      intro fuel cur hfuel hfits hlunch
      match fuel, hfuel with
      | f + 1, _ =>
        simp only [genSlotsAux]
        rw [if_pos (by omega : cur + c.duration ≤ c.endTime)]
        rw [if_neg (by simpa using hlunch)]
        simp
  | succ k ih =>
      intro fuel cur hfuel hfits hlunch
      match fuel, hfuel with
      | f + 1, hfuel =>
        have hstep : cur + c.duration ≤ c.endTime := by
          have : c.duration ≤ (k + 1) * c.duration := Nat.le_mul_of_pos_left _ (by omega)
          omega
        have htarget : cur + (k + 1) * c.duration = (cur + c.duration) + k * c.duration := by ring
        have hmem : (cur + c.duration) + k * c.duration ∈ genSlotsAux c f (cur + c.duration) := by
          apply ih f (cur + c.duration) (by omega)
          · omega
          · rw [← htarget]; exact hlunch
        simp only [genSlotsAux]
        rw [if_pos hstep]
        by_cases hl : c.lunchStart ≤ cur ∧ cur < c.lunchEnd
        · rw [if_pos hl]; rw [htarget]; exact hmem
        · rw [if_neg hl]
          rw [htarget]
          exact List.mem_cons_of_mem _ hmem

/-- Counterexample to claim C2: `_generate_time_slots` (and the
surrounding `__init__`) contain no validation and no `ConfigurationError`
— the identifier does not occur anywhere in the repository.  With
`start_time = 17:00 ≥ end_time = 09:00` construction succeeds and
silently yields an empty grid, and with `lunch_start = 10:30 >
lunch_end = 10:00` it succeeds and yields a normal non-empty grid, so in
both invalid configurations a (partial) result is produced and no error
is surfaced. -/
theorem generateTimeSlots_no_configuration_error :
    generateTimeSlots ⟨1020, 540, 45, 750, 810⟩ = [] ∧
    generateTimeSlots ⟨540, 660, 45, 630, 600⟩ = [540, 585] := by
  constructor <;> rfl

/-- Claim C2, amended: slot-grid construction never fails.  If
`start_time ≥ end_time` (with a positive duration) the produced grid is
empty, and if `lunch_start ≥ lunch_end` the lunch exclusion is vacuous —
every stepped slot that fits in the window is present in the grid.  No
`ConfigurationError` is raised (the embedded function is total), so an
invalid configuration flows on into population creation. -/
theorem generateTimeSlots_invalid_config_behavior (c : SlotConfig) (hdur : 1 ≤ c.duration) :
    (c.endTime ≤ c.startTime → generateTimeSlots c = []) ∧
    (c.lunchEnd ≤ c.lunchStart →
      ∀ k, c.startTime + k * c.duration + c.duration ≤ c.endTime →
        c.startTime + k * c.duration ∈ generateTimeSlots c) := by
  constructor
  · intro hse
    unfold generateTimeSlots
    have : c.endTime + 1 = c.endTime + 1 := rfl
    match h : c.endTime + 1 with
    | 0 => simp at h
    | f + 1 =>
        simp only [genSlotsAux]
        rw [if_neg (by omega)]
  · intro hlv k hk
    apply genSlotsAux_complete
    · have hkd : k * c.duration ≤ c.endTime := by omega
      have : k ≤ k * c.duration := Nat.le_mul_of_pos_right _ (by omega)
      omega
    · exact hk
    · intro ⟨h1, h2⟩; omega

/-- Witness for the amended C2 at a concrete invalid configuration
(start 17:00, end 09:00, and a reversed lunch window on a second
configuration). -/
theorem generateTimeSlots_invalid_config_behavior_witness :
    generateTimeSlots ⟨1020, 540, 45, 750, 810⟩ = [] ∧
    (540 + 1 * 45 + 45 ≤ 660 ∧ 540 + 1 * 45 ∈ generateTimeSlots ⟨540, 660, 45, 630, 600⟩) := by
  refine ⟨(generateTimeSlots_invalid_config_behavior ⟨1020, 540, 45, 750, 810⟩ (by decide)).1
    (by decide), by decide,
    (generateTimeSlots_invalid_config_behavior ⟨540, 660, 45, 630, 600⟩ (by decide)).2
    (by decide) 1 (by decide)⟩

theorem gaStep_le (best : ℚ) (g : List ℚ) : best ≤ gaStep best g := by
  unfold gaStep
  split
  · exact le_of_lt (by assumption)
  · exact le_refl best

theorem gaFinal_mono (gens : List (List ℚ)) : ∀ best : ℚ, best ≤ gaFinal best gens := by
  induction gens with
  | nil => intro best; exact le_refl best
  | cons g gs ih =>
      intro best
      exact le_trans (gaStep_le best g) (ih (gaStep best g))

theorem gaHistory_chain (gens : List (List ℚ)) :
    ∀ best : ℚ, List.Chain' (· ≤ ·) (gaHistory best gens) := by
  induction gens with
  | nil => intro best; simp [gaHistory]
  | cons g gs ih =>
      intro best
      cases gs with
      | nil => simp [gaHistory]
      | cons g2 gs2 =>
          refine List.Chain'.cons ?_ (ih (gaStep best g))
          exact gaStep_le (gaStep best g) g2

theorem gaHistory_getLast (gens : List (List ℚ)) :
    ∀ best : ℚ, gens ≠ [] → (gaHistory best gens).getLast? = some (gaFinal best gens) := by
  induction gens with
  | nil => intro best h; exact absurd rfl h
  | cons g gs ih =>
      intro best _
      cases gs with
      | nil => simp [gaHistory, gaFinal]
      | cons g2 gs2 =>
          have h2 : (g2 :: gs2 : List (List ℚ)) ≠ [] := by simp
          have := ih (gaStep best g) h2
          simp only [gaHistory, gaFinal] at *
          rw [List.getLast?_cons_cons]
          exact this

theorem gaHistory_le_final (gens : List (List ℚ)) :
    ∀ best : ℚ, ∀ x ∈ gaHistory best gens, x ≤ gaFinal best gens := by
  induction gens with
  | nil => intro best x hx; simp [gaHistory] at hx
  | cons g gs ih =>
      intro best x hx
      simp only [gaHistory, List.mem_cons] at hx
      rcases hx with h | h
      · subst h
        exact gaFinal_mono gs (gaStep best g)
      · exact ih (gaStep best g) x h

theorem gaFinal_mem_history (gens : List (List ℚ)) :
    ∀ best : ℚ, gens ≠ [] → gaFinal best gens ∈ gaHistory best gens := by
  induction gens with
  | nil => intro best h; exact absurd rfl h
  | cons g gs ih =>
      intro best _
      cases gs with
      | nil => simp [gaHistory, gaFinal]
      | cons g2 gs2 =>
          have h2 : (g2 :: gs2 : List (List ℚ)) ≠ [] := by simp
          simp only [gaHistory, gaFinal] at *
          exact List.mem_cons_of_mem _ (ih (gaStep best g) h2)

/-- Claim C1: across all generations of a single `optimize()` run the
tracked best-ever fitness never decreases — the convergence history is a
non-decreasing sequence — and the returned `fitness_score` is its final
element and an upper bound of (hence the maximum of) the history. -/
theorem optimize_convergence_monotone (gens : List (List ℚ)) (hne : gens ≠ []) :
    List.Chain' (· ≤ ·) (gaHistory 0 gens) ∧
    (gaHistory 0 gens).getLast? = some (gaFinal 0 gens) ∧
    (∀ x ∈ gaHistory 0 gens, x ≤ gaFinal 0 gens) ∧
    gaFinal 0 gens ∈ gaHistory 0 gens := by
  exact ⟨gaHistory_chain gens 0, gaHistory_getLast gens 0 hne,
    gaHistory_le_final gens 0, gaFinal_mem_history gens 0 hne⟩

/-- Witness for C1 at a concrete run (three generations with population
fitness lists `[3, 7]`, `[2, 4]`, `[9, 1]`; history `[7, 7, 9]`). -/
theorem optimize_convergence_monotone_witness :
    List.Chain' (· ≤ ·) (gaHistory 0 [[3, 7], [2, 4], [9, 1]]) ∧
    (gaHistory 0 [[3, 7], [2, 4], [9, 1]]).getLast? =
      some (gaFinal 0 [[3, 7], [2, 4], [9, 1]]) ∧
    (∀ x ∈ gaHistory 0 [[3, 7], [2, 4], [9, 1]],
      x ≤ gaFinal 0 [[3, 7], [2, 4], [9, 1]]) ∧
    gaFinal 0 [[3, 7], [2, 4], [9, 1]] ∈ gaHistory 0 [[3, 7], [2, 4], [9, 1]] :=
  optimize_convergence_monotone [[3, 7], [2, 4], [9, 1]] (by simp)

theorem cacheSound_mono (ctx : OptCtx) {hist hist' : List Timetable} {c : Cache}
    (hsub : ∀ t ∈ hist, t ∈ hist') (h : CacheSound ctx hist c) : CacheSound ctx hist' c := by
  intro e he
  obtain ⟨t, ht, h1, h2⟩ := h e he
  exact ⟨t, hsub t ht, h1, h2⟩

theorem calculateFitness_cacheSound (ctx : OptCtx) (hist : List Timetable) (c : Cache)
    (t : Timetable) (h : CacheSound ctx hist c) :
    CacheSound ctx (hist ++ [t]) (calculateFitness ctx c t).2 := by
  unfold calculateFitness
  cases hlk : lookupHash c (hashTimetable ctx t) with
  | some v =>
      simp only
      exact cacheSound_mono ctx (fun x hx => List.mem_append_left _ hx) h
  | none =>
      simp only
      intro e he
      rcases List.mem_cons.mp he with he | he
      · subst he
        exact ⟨t, List.mem_append_right _ (List.mem_singleton.mpr rfl), rfl, rfl⟩
      · obtain ⟨u, hu, h1, h2⟩ := h e he
        exact ⟨u, List.mem_append_left _ hu, h1, h2⟩

theorem evalHistory_cacheSound_aux (ctx : OptCtx) (ts : List Timetable) :
    ∀ (hist0 : List Timetable) (c : Cache), CacheSound ctx hist0 c →
      CacheSound ctx (hist0 ++ ts) (ts.foldl (fun c t => (calculateFitness ctx c t).2) c) := by
  induction ts with
  | nil => intro hist0 c h; simpa using h
  | cons t ts ih =>
      intro hist0 c h
      have step := calculateFitness_cacheSound ctx hist0 c t h
      have := ih (hist0 ++ [t]) _ step
      simpa [List.append_assoc] using this

theorem evalHistory_cacheSound (ctx : OptCtx) (hist : List Timetable) :
    CacheSound ctx hist (evalHistory ctx hist) := by
  have h0 : CacheSound ctx ([] : List Timetable) [] := by intro e he; simp at he
  have := evalHistory_cacheSound_aux ctx hist [] [] h0
  simpa [evalHistory] using this

theorem lookupHash_mem (c : Cache) (k : List (String × Nat × String × String × String))
    (v : ℚ) (h : lookupHash c k = some v) : (k, v) ∈ c := by
  induction c with
  | nil => simp [lookupHash] at h
  | cons e rest ih =>
      match e with
      | (k', v') =>
          simp only [lookupHash] at h
          by_cases hk : k' = k
          · rw [if_pos hk] at h
            subst hk
            injection h with h
            subst h
            exact List.mem_cons_self _ _
          · rw [if_neg hk] at h
            exact List.mem_cons_of_mem _ (ih h)

/-- Claim C3, amended: `calculate_fitness` agrees with the direct
cache-free computation (base 1000 plus the five weighted sub-scores,
floored at 0) provided no earlier-evaluated timetable of the run shares
the new timetable's `(day, slot, course, teacher, room)` hash while
having a different raw fitness; in particular this holds for the first
evaluation of any hash.  Full content-purity fails because the hash
omits the `type` / `is_consecutive` / `session_part` / `total_duration`
fields (see the counterexample). -/
theorem calculateFitness_eq_uncached (ctx : OptCtx) (hist : List Timetable) (tt : Timetable)
    (h : ∀ t ∈ hist, hashTimetable ctx t = hashTimetable ctx tt →
      fitnessRaw ctx t = fitnessRaw ctx tt) :
    (calculateFitness ctx (evalHistory ctx hist) tt).1 = fitnessRaw ctx tt := by
  unfold calculateFitness
  cases hlk : lookupHash (evalHistory ctx hist) (hashTimetable ctx tt) with
  | none => simp
  | some v =>
      simp only
      have hmem := lookupHash_mem _ _ _ hlk
      obtain ⟨t, ht, h1, h2⟩ := evalHistory_cacheSound ctx hist _ hmem
      simp only at h1 h2
      rw [h2]
      exact h t ht h1.symm

/-- Witness for the amended C3: the very first evaluation (empty
history) returns the cache-free fitness. -/
theorem calculateFitness_eq_uncached_witness :
    (calculateFitness ctx3 (evalHistory ctx3 []) t3a).1 = fitnessRaw ctx3 t3a :=
  calculateFitness_eq_uncached ctx3 [] t3a (by intro t ht; simp at ht)

theorem fitnessRaw_t3a : fitnessRaw ctx3 t3a = 0 := by
  have h1 : checkNoConflicts t3a = 15 := by decide
  have h2 : checkConsecLab ctx3 t3a = -150 := by decide
  have h3 : checkCourseCompletion ctx3 t3a = 100 := by
    have h : courseCounts t3a = [("C1", 1)] := by decide
    norm_num [checkCourseCompletion, h, getCount, ctx3, sess3a]
  have h4 : checkTeacherWorkload t3a = 20 := by
    have h : teacherHours t3a = [("T", 1)] := by decide
    norm_num [checkTeacherWorkload, h, sumCounts, sess3a]
  have h5 : checkRoomUtilization t3a = 0 := by
    have h : roomUsage t3a = [("Lab 1", 1)] := by decide
    norm_num [checkRoomUtilization, h, sumCounts, sess3a]
  rw [fitnessRaw, h1, h2, h3, h4, h5]
  norm_num

theorem fitnessRaw_t3b : fitnessRaw ctx3 t3b = 74500 := by
  have h1 : checkNoConflicts t3b = 15 := by decide
  have h2 : checkConsecLab ctx3 t3b = 0 := by decide
  have h3 : checkCourseCompletion ctx3 t3b = 100 := by
    have h : courseCounts t3b = [("C1", 1)] := by decide
    norm_num [checkCourseCompletion, h, getCount, ctx3, sess3b, sess3a]
  have h4 : checkTeacherWorkload t3b = 20 := by
    have h : teacherHours t3b = [("T", 1)] := by decide
    norm_num [checkTeacherWorkload, h, sumCounts]
  have h5 : checkRoomUtilization t3b = 0 := by
    have h : roomUsage t3b = [("Lab 1", 1)] := by decide
    norm_num [checkRoomUtilization, h, sumCounts]
  rw [fitnessRaw, h1, h2, h3, h4, h5]
  norm_num

/-- Counterexample to claim C3: `t3a` and `t3b` differ only in the
session's `type` field, which `_hash_timetable` does not record, so they
collide in the fitness cache; their cache-free fitness values differ
(0 vs 74500, via the consecutive-lab sub-score).  After `t3a` has been
evaluated, `calculate_fitness(t3b)` returns the stale cached value of
`t3a` instead of the cache-free computation on `t3b`'s full content, so
the cached evaluator and the uncached evaluator are *not* equal as
functions of the full timetable content. -/
theorem calculateFitness_cache_collision :
    (calculateFitness ctx3 (calculateFitness ctx3 [] t3a).2 t3b).1 ≠ fitnessRaw ctx3 t3b := by
  have hhash : hashTimetable ctx3 t3b = hashTimetable ctx3 t3a := by decide
  simp only [calculateFitness, lookupHash, hhash, if_pos]
  rw [fitnessRaw_t3a, fitnessRaw_t3b]
  norm_num

theorem saStep_ok (f : Timetable → ℚ) (s s2 : SAState) (mv : Timetable)
    (h : saStep f s mv = Except.ok s2) :
    s.bestFit ≤ s2.bestFit ∧ s2.currentFit ≤ s2.bestFit := by
  unfold saStep at h
  by_cases h1 : s.currentFit < f mv
  · rw [if_pos h1] at h
    injection h with h
    by_cases h2 : s.bestFit < f mv
    · rw [if_pos h2] at h
      rw [← h]
      exact ⟨le_of_lt h2, le_refl _⟩
    · rw [if_neg h2] at h
      rw [← h]
      exact ⟨le_refl _, le_of_not_lt h2⟩
  · rw [if_neg h1] at h
    exact Except.noConfusion h

theorem saRunFrom_ok (f : Timetable → ℚ) :
    ∀ (moves : List Timetable) (s st : SAState),
      saRunFrom f s moves = Except.ok st →
      s.bestFit ≤ st.bestFit ∧ st.currentFit ≤ st.bestFit ∨ st = s := by
  intro moves
  induction moves with
  | nil =>
      intro s st h
      injection h with h
      exact Or.inr h.symm
  | cons mv rest ih =>
      intro s st h
      simp only [saRunFrom] at h
      cases hstep : saStep f s mv with
      | ok s2 =>
          rw [hstep] at h
          obtain ⟨hb, hcb⟩ := saStep_ok f s s2 mv hstep
          rcases ih s2 st h with ⟨hb2, hcb2⟩ | heq
          · exact Or.inl ⟨le_trans hb hb2, hcb2⟩
          · rw [heq]
            exact Or.inl ⟨hb, hcb⟩
      | error e =>
          rw [hstep] at h
          exact Except.noConfusion h

theorem hybridStep_ok (f : Timetable → ℚ) (s s2 : HState) (mv : Timetable)
    (h : hybridStep f s mv = Except.ok s2) : s.currentFit ≤ s2.currentFit := by
  unfold hybridStep at h
  by_cases h1 : s.currentFit < f mv
  · rw [if_pos h1] at h
    injection h with h
    rw [← h]
    exact le_of_lt h1
  · rw [if_neg h1] at h
    exact Except.noConfusion h

theorem hybridRunFrom_ok (f : Timetable → ℚ) :
    ∀ (moves : List Timetable) (s st : HState),
      hybridRunFrom f s moves = Except.ok st → s.currentFit ≤ st.currentFit := by
  intro moves
  induction moves with
  | nil =>
      intro s st h
      injection h with h
      rw [h]
  | cons mv rest ih =>
      intro s st h
      simp only [hybridRunFrom] at h
      cases hstep : hybridStep f s mv with
      | ok s2 =>
          rw [hstep] at h
          exact le_trans (hybridStep_ok f s s2 mv hstep) (ih s2 st h)
      | error e =>
          rw [hstep] at h
          exact Except.noConfusion h

theorem fitnessRaw_t3e : fitnessRaw ctx3 t3e = 1000 := by
  have h1 : checkNoConflicts t3e = 0 := by decide
  have h2 : checkConsecLab ctx3 t3e = 0 := by decide
  have h3 : checkCourseCompletion ctx3 t3e = 0 := by
    have h : courseCounts t3e = [] := by decide
    norm_num [checkCourseCompletion, h, getCount, ctx3]
  have h4 : checkTeacherWorkload t3e = 0 := by
    have h : teacherHours t3e = [] := by decide
    norm_num [checkTeacherWorkload, h]
  have h5 : checkRoomUtilization t3e = 0 := by
    have h : roomUsage t3e = [] := by decide
    norm_num [checkRoomUtilization, h]
  rw [fitnessRaw, h1, h2, h3, h4, h5]
  norm_num

/-- Claim C4 (the claim is right, the code has a bug): the first
non-improving neighbor makes both annealing loops evaluate
`random.exp(delta / temperature)`, which raises `AttributeError`
because the `random` module has no `exp` attribute — shown here on a
concrete run with the engine's own evaluator (seed fitness 74500,
neighbor fitness 1000).  The phase then aborts with no result instead
of returning the best-ever timetable.  Complementing the crash, every
run that does return satisfies the claim: the standalone phase returns
`best_fitness` at least the seed's fitness (and at least the final
current fitness), and the hybrid phase returns `current_fitness` at
least the seed's fitness, because every completed iteration is strictly
improving. -/
theorem annealing_metropolis_crash :
    saRun (fitnessRaw ctx3) t3b (fitnessRaw ctx3 t3b) [t3e] =
      Except.error "AttributeError: module random has no attribute exp" ∧
    hybridRun (fitnessRaw ctx3) t3b (fitnessRaw ctx3 t3b) [t3e] =
      Except.error "AttributeError: module random has no attribute exp" ∧
    (∀ (f : Timetable → ℚ) (seed : Timetable) (seedFit : ℚ) (moves : List Timetable)
      (st : SAState), saRun f seed seedFit moves = Except.ok st →
        seedFit ≤ st.bestFit ∧ st.currentFit ≤ st.bestFit) ∧
    (∀ (f : Timetable → ℚ) (seed : Timetable) (seedFit : ℚ) (moves : List Timetable)
      (st : HState), hybridRun f seed seedFit moves = Except.ok st →
        seedFit ≤ st.currentFit) := by
  have hlt : ¬(fitnessRaw ctx3 t3b < fitnessRaw ctx3 t3e) := by
    rw [fitnessRaw_t3e, fitnessRaw_t3b]
    norm_num
  refine ⟨?_, ?_, ?_, ?_⟩
  · simp only [saRun, saRunFrom, saStep]
    rw [if_neg hlt]
  · simp only [hybridRun, hybridRunFrom, hybridStep]
    rw [if_neg hlt]
  · intro f seed seedFit moves st h
    rcases saRunFrom_ok f moves ⟨seed, seedFit, seed, seedFit⟩ st h with ⟨hb, hcb⟩ | heq
    · exact ⟨hb, hcb⟩
    · rw [heq]
      exact ⟨le_refl _, le_refl _⟩
  · intro f seed seedFit moves st h
    exact hybridRunFrom_ok f moves ⟨seed, seedFit⟩ st h

/-- Witness for C4: a run whose single generated neighbor improves on
the seed completes, and the returned state satisfies both on-return
guarantees (seed fitness 1000, neighbor fitness 74500). -/
theorem annealing_metropolis_crash_witness :
    (fitnessRaw ctx3 t3e ≤
        (SAState.mk t3b (fitnessRaw ctx3 t3b) t3b (fitnessRaw ctx3 t3b)).bestFit ∧
      (SAState.mk t3b (fitnessRaw ctx3 t3b) t3b (fitnessRaw ctx3 t3b)).currentFit ≤
        (SAState.mk t3b (fitnessRaw ctx3 t3b) t3b (fitnessRaw ctx3 t3b)).bestFit) ∧
    fitnessRaw ctx3 t3e ≤ (HState.mk t3b (fitnessRaw ctx3 t3b)).currentFit :=
  ⟨annealing_metropolis_crash.2.2.1 (fitnessRaw ctx3) t3e (fitnessRaw ctx3 t3e) [t3b]
      (SAState.mk t3b (fitnessRaw ctx3 t3b) t3b (fitnessRaw ctx3 t3b)) (by
        have hgt : fitnessRaw ctx3 t3e < fitnessRaw ctx3 t3b := by
          rw [fitnessRaw_t3e, fitnessRaw_t3b]
          norm_num
        simp only [saRun, saRunFrom, saStep]
        rw [if_pos hgt, if_pos hgt]),
   annealing_metropolis_crash.2.2.2 (fitnessRaw ctx3) t3e (fitnessRaw ctx3 t3e) [t3b]
      (HState.mk t3b (fitnessRaw ctx3 t3b)) (by
        have hgt : fitnessRaw ctx3 t3e < fitnessRaw ctx3 t3b := by
          rw [fitnessRaw_t3e, fitnessRaw_t3b]
          norm_num
        simp only [hybridRun, hybridRunFrom, hybridStep]
        rw [if_pos hgt])⟩

theorem setSlot_keys (sch : List (Nat × Option Session)) (t : Nat) (v : Option Session) :
    (setSlot sch t v).map Prod.fst = sch.map Prod.fst := by
  induction sch with
  | nil => rfl
  | cons q rest ih =>
      match q with
      | (t', c) =>
          simp only [setSlot]
          by_cases h : t' = t
          · rw [if_pos h]; simp
          · rw [if_neg h]; simp [ih]

theorem setCell_dayKeys (tt : Timetable) (d : String) (t : Nat) (v : Option Session) :
    (setCell tt d t v).map Prod.fst = tt.map Prod.fst := by
  induction tt with
  | nil => rfl
  | cons e rest ih =>
      match e with
      | (d', sch) =>
          simp only [setCell]
          by_cases h : d' = d
          · rw [if_pos h]; simp
          · rw [if_neg h]; simp [ih]

theorem setCell_entries (tt : Timetable) (d : String) (t : Nat) (v : Option Session) :
    ∀ p ∈ setCell tt d t v, ∃ q ∈ tt, p.1 = q.1 ∧ p.2.map Prod.fst = q.2.map Prod.fst := by
  induction tt with
  | nil => intro p hp; simp [setCell] at hp
  | cons e rest ih =>
      match e with
      | (d', sch) =>
          intro p hp
          simp only [setCell] at hp
          by_cases h : d' = d
          · rw [if_pos h] at hp
            rcases List.mem_cons.mp hp with hp | hp
            · subst hp
              exact ⟨(d', sch), List.mem_cons_self _ _, rfl, setSlot_keys sch t v⟩
            · exact ⟨p, List.mem_cons_of_mem _ hp, rfl, rfl⟩
          · rw [if_neg h] at hp
            rcases List.mem_cons.mp hp with hp | hp
            · subst hp
              exact ⟨(d', sch), List.mem_cons_self _ _, rfl, rfl⟩
            · obtain ⟨q, hq, h1, h2⟩ := ih p hp
              exact ⟨q, List.mem_cons_of_mem _ hq, h1, h2⟩

theorem WF_setCell (tt : Timetable) (d : String) (t : Nat) (v : Option Session)
    (h : WF tt) : WF (setCell tt d t v) := by
  obtain ⟨hday, hslot⟩ := h
  refine ⟨by rw [setCell_dayKeys]; exact hday, ?_⟩
  intro p hp
  obtain ⟨q, hq, _, h2⟩ := setCell_entries tt d t v p hp
  rw [h2]
  exact hslot q hq

theorem setSlot_key_mem (sch : List (Nat × Option Session)) (t : Nat) (v : Option Session) :
    ∀ q ∈ setSlot sch t v, q.1 ∈ sch.map Prod.fst := by
  intro q hq
  have : q.1 ∈ (setSlot sch t v).map Prod.fst := List.mem_map_of_mem _ hq
  rwa [setSlot_keys] at this

theorem SlotKeysIn_setCell (tt : Timetable) (slots : List Nat) (d : String) (t : Nat)
    (v : Option Session) (h : SlotKeysIn tt slots) : SlotKeysIn (setCell tt d t v) slots := by
  intro p hp q hq
  obtain ⟨p', hp', _, h2⟩ := setCell_entries tt d t v p hp
  have : q.1 ∈ p.2.map Prod.fst := List.mem_map_of_mem _ hq
  rw [h2] at this
  obtain ⟨q', hq', hq1⟩ := List.mem_map.mp this
  rw [← hq1]
  exact h p' hp' q' hq'

theorem lookupSlot_setSlot_ne (sch : List (Nat × Option Session)) (t t' : Nat)
    (v : Option Session) (h : t ≠ t') :
    lookupSlot (setSlot sch t' v) t = lookupSlot sch t := by
  induction sch with
  | nil => rfl
  | cons q rest ih =>
      match q with
      | (t0, c) =>
          simp only [setSlot]
          by_cases h0 : t0 = t'
          · rw [if_pos h0]
            simp only [lookupSlot]
            rw [if_neg (by rw [h0]; exact fun hh => h hh.symm), if_neg (by rw [h0]; exact fun hh => h hh.symm)]
          · rw [if_neg h0]
            simp only [lookupSlot]
            by_cases h1 : t0 = t
            · rw [if_pos h1, if_pos h1]
            · rw [if_neg h1, if_neg h1]; exact ih

theorem lookupDay_setCell_ne (tt : Timetable) (d d' : String) (t : Nat)
    (v : Option Session) (h : d ≠ d') :
    lookupDay (setCell tt d' t v) d = lookupDay tt d := by
  induction tt with
  | nil => rfl
  | cons e rest ih =>
      match e with
      | (d0, sch) =>
          simp only [setCell]
          by_cases h0 : d0 = d'
          · rw [if_pos h0]
            simp only [lookupDay]
            rw [if_neg (by rw [h0]; exact fun hh => h hh.symm), if_neg (by rw [h0]; exact fun hh => h hh.symm)]
          · rw [if_neg h0]
            simp only [lookupDay]
            by_cases h1 : d0 = d
            · rw [if_pos h1, if_pos h1]
            · rw [if_neg h1, if_neg h1]; exact ih

theorem lookupDay_setCell_same (tt : Timetable) (d : String) (t : Nat) (v : Option Session) :
    lookupDay (setCell tt d t v) d = (lookupDay tt d).map (fun sch => setSlot sch t v) := by
  induction tt with
  | nil => rfl
  | cons e rest ih =>
      match e with
      | (d0, sch) =>
          simp only [setCell]
          by_cases h0 : d0 = d
          · rw [if_pos h0]
            simp only [lookupDay]
            rw [if_pos h0, if_pos h0]
            rfl
          · rw [if_neg h0]
            simp only [lookupDay]
            rw [if_neg h0, if_neg h0]
            exact ih

theorem cellAt_setCell_ne (tt : Timetable) (d d' : String) (t t' : Nat) (v : Option Session)
    (h : ¬(d = d' ∧ t = t')) : cellAt (setCell tt d' t' v) d t = cellAt tt d t := by
  by_cases hd : d = d'
  · subst hd
    have ht : t ≠ t' := fun ht => h ⟨rfl, ht⟩
    unfold cellAt
    rw [lookupDay_setCell_same]
    cases hq : lookupDay tt d with
    | none => rfl
    | some sch => simp [lookupSlot_setSlot_ne sch t t' v ht]
  · unfold cellAt
    rw [lookupDay_setCell_ne tt d d' t' v hd]

theorem lookupDay_of_mem_nodup (tt : Timetable) (d : String)
    (sch : List (Nat × Option Session)) (hnd : (tt.map Prod.fst).Nodup)
    (hmem : (d, sch) ∈ tt) : lookupDay tt d = some sch := by
  induction tt with
  | nil => simp at hmem
  | cons e rest ih =>
      match e with
      | (d0, sch0) =>
          simp only [List.map_cons, List.nodup_cons] at hnd
          rcases List.mem_cons.mp hmem with h | h
          · injection h with h1 h2
            subst h1; subst h2
            simp [lookupDay]
          · have hd0 : d0 ≠ d := by
              intro he
              subst he
              exact hnd.1 (List.mem_map_of_mem Prod.fst h)
            simp only [lookupDay]
            rw [if_neg hd0]
            exact ih hnd.2 h

theorem lookupSlot_of_mem_nodup (sch : List (Nat × Option Session)) (t : Nat)
    (c : Option Session) (hnd : (sch.map Prod.fst).Nodup)
    (hmem : (t, c) ∈ sch) : lookupSlot sch t = some c := by
  induction sch with
  | nil => simp at hmem
  | cons q rest ih =>
      match q with
      | (t0, c0) =>
          simp only [List.map_cons, List.nodup_cons] at hnd
          rcases List.mem_cons.mp hmem with h | h
          · injection h with h1 h2
            subst h1; subst h2
            simp [lookupSlot]
          · have ht0 : t0 ≠ t := by
              intro he
              subst he
              exact hnd.1 (List.mem_map_of_mem Prod.fst h)
            simp only [lookupSlot]
            rw [if_neg ht0]
            exact ih hnd.2 h

theorem allSlots_mem (tt : Timetable) (p : String × Nat) (hp : p ∈ allSlots tt) :
    ∃ e ∈ tt, ∃ q ∈ e.2, q.2.isSome = true ∧ p = (e.1, q.1) := by
  induction tt with
  | nil => simp [allSlots] at hp
  | cons e rest ih =>
      simp only [allSlots, List.foldr_cons] at hp
      rcases List.mem_append.mp hp with h | h
      · obtain ⟨q, hq, hq2⟩ := List.mem_filterMap.mp h
        by_cases hs : q.2.isSome
        · rw [if_pos hs] at hq2
          injection hq2 with hq2
          exact ⟨e, List.mem_cons_self _ _, q, hq, hs, hq2.symm⟩
        · rw [if_neg hs] at hq2
          exact absurd hq2 (by simp)
      · obtain ⟨e', he', q, hq, h1, h2⟩ := ih h
        exact ⟨e', List.mem_cons_of_mem _ he', q, hq, h1, h2⟩

theorem allSlots_occupied (tt : Timetable) (hwf : WF tt) (p : String × Nat)
    (hp : p ∈ allSlots tt) : ∃ s, cellAt tt p.1 p.2 = some s := by
  obtain ⟨e, he, q, hq, hsome, hpq⟩ := allSlots_mem tt p hp
  obtain ⟨s, hs⟩ := Option.isSome_iff_exists.mp hsome
  refine ⟨s, ?_⟩
  subst hpq
  simp [cellAt, lookupDay_of_mem_nodup tt e.1 e.2 hwf.1 (by simpa using he),
    lookupSlot_of_mem_nodup e.2 q.1 q.2 (hwf.2 e he) (by simpa using hq), hs]

theorem foldl_preserves {α : Type} {P : Timetable → Prop} (f : Timetable → α → Timetable)
    (hf : ∀ t a, P t → P (f t a)) :
    ∀ (l : List α) (t : Timetable), P t → P (l.foldl f t) := by
  intro l
  induction l with
  | nil => intro t h; exact h
  | cons a l ih => intro t h; exact ih (f t a) (hf t a h)

theorem placeConsecutiveLab_preserves {P : Timetable → Prop}
    (hset : ∀ tt d t v, P tt → P (setCell tt d t v))
    (ctx : OptCtx) (day : String) (startIdx labDur : Nat) (info : Session) :
    ∀ tt, P tt → P (placeConsecutiveLab ctx tt day startIdx labDur info) := by
  intro tt h
  unfold placeConsecutiveLab
  apply foldl_preserves
  · intro t i hi
    cases hg : ctx.timeSlots.get? (startIdx + i) with
    | none => simpa [hg] using hi
    | some slot => simpa [hg] using hset t day slot _ hi
  · exact h

theorem placeLabReq_preserves {P : Timetable → Prop}
    (hset : ∀ tt d t v, P tt → P (setCell tt d t v))
    (ctx : OptCtx) (info : Session) :
    ∀ (cands : List (String × Nat)) (tt : Timetable), P tt →
      P (placeLabReq ctx tt info cands) := by
  intro cands
  induction cands with
  | nil => intro tt h; exact h
  | cons c rest ih =>
      intro tt h
      match c with
      | (day, idx) =>
          simp only [placeLabReq]
          by_cases hc : canPlaceConsecutiveLab ctx tt day idx info.labDuration info.teacher
          · rw [if_pos hc]
            exact placeConsecutiveLab_preserves hset ctx day idx info.labDuration info tt h
          · rw [if_neg hc]
            exact ih tt h

theorem placeLabs_preserves {P : Timetable → Prop}
    (hset : ∀ tt d t v, P tt → P (setCell tt d t v))
    (ctx : OptCtx) (reqs : List (Session × List (String × Nat))) :
    ∀ tt, P tt → P (placeLabs ctx tt reqs) := by
  intro tt h
  unfold placeLabs
  apply foldl_preserves
  · intro t r hr
    exact placeLabReq_preserves hset ctx r.1 r.2 t hr
  · exact h

theorem placeLectureReq_preserves {P : Timetable → Prop}
    (hset : ∀ tt d t v, P tt → P (setCell tt d t v))
    (ctx : OptCtx) (info : Session) :
    ∀ (cands : List (String × Nat)) (tt : Timetable), P tt →
      P (placeLectureReq ctx tt info cands) := by
  intro cands
  induction cands with
  | nil => intro tt h; exact h
  | cons c rest ih =>
      intro tt h
      match c with
      | (day, slot) =>
          simp only [placeLectureReq]
          by_cases hc : ((cellAt tt day slot).isNone && !(teacherBusyAt ctx tt slot info.teacher)) = true
          · rw [if_pos hc]
            exact hset tt day slot _ h
          · rw [if_neg hc]
            exact ih tt h

theorem placeLectures_preserves {P : Timetable → Prop}
    (hset : ∀ tt d t v, P tt → P (setCell tt d t v))
    (ctx : OptCtx) (reqs : List (Session × List (String × Nat))) :
    ∀ tt, P tt → P (placeLectures ctx tt reqs) := by
  intro tt h
  unfold placeLectures
  apply foldl_preserves
  · intro t r hr
    exact placeLectureReq_preserves hset ctx r.1 r.2 t hr
  · exact h

theorem createIndividual_preserves {P : Timetable → Prop}
    (hset : ∀ tt d t v, P tt → P (setCell tt d t v))
    (ctx : OptCtx) (labReqs lecReqs : List (Session × List (String × Nat)))
    (hempty : P (emptyTimetable ctx)) : P (createIndividual ctx labReqs lecReqs) :=
  placeLectures_preserves hset ctx lecReqs _
    (placeLabs_preserves hset ctx labReqs _ hempty)

theorem map_fst_pair {α β : Type} (f : α → β) :
    ∀ l : List α, (l.map fun a => (a, f a)).map Prod.fst = l := by
  intro l
  induction l with
  | nil => rfl
  | cons a l ih => simp only [List.map_cons, ih]

theorem WF_emptyTimetable (ctx : OptCtx) (hd : ctx.workingDays.Nodup)
    (ht : ctx.timeSlots.Nodup) : WF (emptyTimetable ctx) := by
  constructor
  · unfold emptyTimetable
    rw [map_fst_pair]
    exact hd
  · intro p hp
    simp only [emptyTimetable, List.mem_map] at hp
    obtain ⟨d, _, hpd⟩ := hp
    rw [← hpd]
    simp only
    rw [map_fst_pair]
    exact ht

theorem SlotKeysIn_emptyTimetable (ctx : OptCtx) :
    SlotKeysIn (emptyTimetable ctx) ctx.timeSlots := by
  intro p hp q hq
  simp only [emptyTimetable, List.mem_map] at hp
  obtain ⟨d, _, hpd⟩ := hp
  rw [← hpd] at hq
  simp only [List.mem_map] at hq
  obtain ⟨t, htm, hqt⟩ := hq
  rw [← hqt]
  exact htm

theorem map_fst_enum_pair {β : Type} (f : Nat × String → β) (l : List String) :
    ((l.enum.map fun iq => (iq.2, f iq)).map Prod.fst) = l := by
  rw [List.map_map]
  have hc : (Prod.fst ∘ fun iq : Nat × String => (iq.2, f iq)) = Prod.snd := by
    funext iq; rfl
  rw [hc, List.enum_map_snd]

theorem WF_crossover (ctx : OptCtx) (splitIdx : Nat) (p1 p2 : Timetable)
    (hd : ctx.workingDays.Nodup) (ht : ctx.timeSlots.Nodup) :
    WF (crossover ctx splitIdx p1 p2) := by
  constructor
  · unfold crossover
    rw [map_fst_enum_pair]
    exact hd
  · intro p hp
    simp only [crossover, List.mem_map] at hp
    obtain ⟨iq, _, hpd⟩ := hp
    rw [← hpd]
    simp only
    rw [map_fst_pair]
    exact ht

theorem WF_mutate (tt : Timetable) (coin : Bool) (c1 c2 : String × Nat)
    (h : WF tt) : WF (mutate tt coin c1 c2) := by
  unfold mutate
  by_cases h1 : (coin && decide (2 ≤ (allSlots tt).length)) = true
  · rw [if_pos h1]
    by_cases h2 : (nonConsecCell (cellAt tt c1.1 c1.2) && nonConsecCell (cellAt tt c2.1 c2.2)) = true
    · rw [if_pos h2]
      exact WF_setCell _ _ _ _ (WF_setCell _ _ _ _ h)
    · rw [if_neg h2]; exact h
  · rw [if_neg h1]; exact h

theorem WF_generateNeighbor (tt : Timetable) (mv : NeighborMove) (h : WF tt) :
    WF (generateNeighbor tt mv) := by
  cases mv with
  | swapTimeSlots day t1 t2 => exact WF_setCell _ _ _ _ (WF_setCell _ _ _ _ h)
  | moveClass sd st dd dt => exact WF_setCell _ _ _ _ (WF_setCell _ _ _ _ h)
  | swapClasses d1 t1 d2 t2 => exact WF_setCell _ _ _ _ (WF_setCell _ _ _ _ h)

/-- Claim C5, amended: when no candidate in the bounded attempt budget
admits a contiguous placement, the lab request is *dropped* — the
attempt loop ends and the timetable is returned unchanged.  There is no
fallback that places the lab as a single non-consecutive session in an
empty slot (see the counterexample, where an empty slot is available
yet the lab appears nowhere). -/
theorem placeLabReq_all_fail (ctx : OptCtx) (tt : Timetable) (info : Session)
    (cands : List (String × Nat))
    (h : ∀ c ∈ cands, canPlaceConsecutiveLab ctx tt c.1 c.2 info.labDuration info.teacher = false) :
    placeLabReq ctx tt info cands = tt := by
  induction cands with
  | nil => rfl
  | cons c rest ih =>
      match c with
      | (day, idx) =>
          simp only [placeLabReq]
          rw [if_neg (by rw [h (day, idx) (List.mem_cons_self _ _)]; simp)]
          exact ih fun c hc => h c (List.mem_cons_of_mem _ hc)

/-- Counterexample to claim C5: two 2-slot lab requests with the same
teacher on a one-day, three-slot grid.  The first lab fills slots 540
and 585; every budgeted attempt for the second lab fails, and the
second lab (`L2`) is then absent from the resulting timetable even
though slot 630 is empty — the request is dropped, not placed in some
empty slot. -/
theorem create_individual_drops_unplaced_lab :
    cellAt result5 "Mon" 630 = none ∧
    (occSessions result5).map (fun s => s.courseCode) = ["L1", "L1"] := by
  constructor <;> decide

theorem placeLabReq_all_fail_witness :
    placeLabReq ctx5 tt5a lab5b [("Mon", 0), ("Mon", 1)] = tt5a :=
  placeLabReq_all_fail ctx5 tt5a lab5b [("Mon", 0), ("Mon", 1)] (by decide)

/-- Claim C6: `_mutate` leaves every cell holding a consecutive-tagged
session unchanged, and the only modification it can make is swapping the
contents of the two sampled occupied cells when neither holds a
consecutive-tagged session — so mutation never splits a lab group.
`c1, c2` are the two occupied cells drawn by `random.sample`. -/
theorem mutate_frame (tt : Timetable) (coin : Bool) (c1 c2 : String × Nat) (hwf : WF tt)
    (h1 : c1 ∈ allSlots tt) (h2 : c2 ∈ allSlots tt) :
    (∀ (d : String) (t : Nat) (s : Session), cellAt tt d t = some s → s.isConsecutive = true →
      cellAt (mutate tt coin c1 c2) d t = some s) ∧
    (mutate tt coin c1 c2 = tt ∨
      ∃ s1 s2, cellAt tt c1.1 c1.2 = some s1 ∧ cellAt tt c2.1 c2.2 = some s2 ∧
        s1.isConsecutive = false ∧ s2.isConsecutive = false ∧
        mutate tt coin c1 c2 = setCell (setCell tt c1.1 c1.2 (some s2)) c2.1 c2.2 (some s1)) := by
  obtain ⟨s1, hs1⟩ := allSlots_occupied tt hwf c1 h1
  obtain ⟨s2, hs2⟩ := allSlots_occupied tt hwf c2 h2
  by_cases hg : (coin && decide (2 ≤ (allSlots tt).length)) = true
  · by_cases hnc : (nonConsecCell (cellAt tt c1.1 c1.2) && nonConsecCell (cellAt tt c2.1 c2.2)) = true
    · have hm : mutate tt coin c1 c2 =
          setCell (setCell tt c1.1 c1.2 (some s2)) c2.1 c2.2 (some s1) := by
        unfold mutate
        rw [if_pos hg]
        simp only
        rw [if_pos hnc, hs1, hs2]
      have hcc : s1.isConsecutive = false ∧ s2.isConsecutive = false := by
        rw [hs1, hs2] at hnc
        simp only [nonConsecCell, Bool.and_eq_true, Bool.not_eq_eq_eq_not, Bool.not_true] at hnc
        simpa using hnc
      refine ⟨?_, Or.inr ⟨s1, s2, hs1, hs2, hcc.1, hcc.2, hm⟩⟩
      intro d t s hc hcons
      have hne1 : ¬(d = c1.1 ∧ t = c1.2) := by
        rintro ⟨hd, ht⟩
        subst hd; subst ht
        rw [hc] at hs1
        injection hs1 with he
        rw [he, hcc.1] at hcons
        exact Bool.false_ne_true hcons
      have hne2 : ¬(d = c2.1 ∧ t = c2.2) := by
        rintro ⟨hd, ht⟩
        subst hd; subst ht
        rw [hc] at hs2
        injection hs2 with he
        rw [he, hcc.2] at hcons
        exact Bool.false_ne_true hcons
      rw [hm, cellAt_setCell_ne _ _ _ _ _ _ hne2, cellAt_setCell_ne _ _ _ _ _ _ hne1]
      exact hc
    · have hm : mutate tt coin c1 c2 = tt := by
        unfold mutate
        rw [if_pos hg]
        simp only
        rw [if_neg hnc]
      rw [hm]
      exact ⟨fun d t s hc _ => hc, Or.inl rfl⟩
  · have hm : mutate tt coin c1 c2 = tt := by
      unfold mutate
      rw [if_neg hg]
    rw [hm]
    exact ⟨fun d t s hc _ => hc, Or.inl rfl⟩

/-- Witness for C6 on a concrete three-cell timetable whose third cell
holds a consecutive lab part. -/
theorem mutate_frame_witness :
    (∀ (d : String) (t : Nat) (s : Session), cellAt tt6 d t = some s → s.isConsecutive = true →
      cellAt (mutate tt6 true ("Mon", 540) ("Mon", 585)) d t = some s) ∧
    (mutate tt6 true ("Mon", 540) ("Mon", 585) = tt6 ∨
      ∃ s1 s2, cellAt tt6 "Mon" 540 = some s1 ∧ cellAt tt6 "Mon" 585 = some s2 ∧
        s1.isConsecutive = false ∧ s2.isConsecutive = false ∧
        mutate tt6 true ("Mon", 540) ("Mon", 585) =
          setCell (setCell tt6 "Mon" 540 (some s2)) "Mon" 585 (some s1)) :=
  mutate_frame tt6 true ("Mon", 540) ("Mon", 585) (by decide) (by decide) (by decide)

/-- Claim C7: every slot of the generated grid starts at `start_time`
plus a whole number of `session_duration` steps, ends no later than
`end_time`, and does not start inside `[lunch_start, lunch_end)`; and
every occupied cell of any timetable built by `create_individual` over
this grid consequently lies outside the lunch interval. -/
theorem grid_and_timetable_lunch_free (c : SlotConfig) :
    (∀ s ∈ generateTimeSlots c,
      (∃ k, s = c.startTime + k * c.duration) ∧ s + c.duration ≤ c.endTime ∧
        ¬(c.lunchStart ≤ s ∧ s < c.lunchEnd)) ∧
    (∀ (ctx : OptCtx) (labReqs lecReqs : List (Session × List (String × Nat)))
        (p : String × Nat),
      ctx.timeSlots = generateTimeSlots c →
      p ∈ allSlots (createIndividual ctx labReqs lecReqs) →
      ¬(c.lunchStart ≤ p.2 ∧ p.2 < c.lunchEnd)) := by
  constructor
  · intro s hs
    exact genSlotsAux_sound c _ _ s hs
  · intro ctx labReqs lecReqs p hts hp
    have hkeys : SlotKeysIn (createIndividual ctx labReqs lecReqs) ctx.timeSlots :=
      createIndividual_preserves (fun tt d t v h => SlotKeysIn_setCell tt _ d t v h)
        ctx labReqs lecReqs (SlotKeysIn_emptyTimetable ctx)
    obtain ⟨e, he, q, hq, _, hpq⟩ := allSlots_mem _ p hp
    have hmem : q.1 ∈ ctx.timeSlots := hkeys e he q hq
    rw [hts] at hmem
    have hsound := (genSlotsAux_sound c _ _ q.1 hmem).2.2
    rw [hpq]
    exact hsound

/-- Witness for C7: grid 09:00–12:00 with lunch 10:30–11:00 (the 10:30
step is skipped), and a lecture placed at 09:00. -/
theorem grid_and_timetable_lunch_free_witness :
    ((∃ k, 585 = 540 + k * 45) ∧ 585 + 45 ≤ 720 ∧ ¬(630 ≤ 585 ∧ 585 < 660)) ∧
    ¬(630 ≤ 540 ∧ 540 < 660) :=
  ⟨(grid_and_timetable_lunch_free cfg7).1 585 (by decide),
   (grid_and_timetable_lunch_free cfg7).2 ctx7 [] [(lec7, [("Mon", 540)])] ("Mon", 540)
     rfl (by decide)⟩

/-- Claim C10: every timetable an engine operation produces
(initialization, crossover, mutation, annealing neighbor moves) keeps
the day/slot dictionary structure well-formed — distinct keys, so each
`(day, slot)` cell holds at most one `Session` — and therefore no
teacher occupies two different Sessions at the same `(day, slot)`:
any two sessions read from the same cell are equal. -/
theorem engine_timetable_cells_unique :
    (∀ (ctx : OptCtx) (labReqs lecReqs : List (Session × List (String × Nat))),
      ctx.workingDays.Nodup → ctx.timeSlots.Nodup →
      WF (createIndividual ctx labReqs lecReqs)) ∧
    (∀ (ctx : OptCtx) (splitIdx : Nat) (p1 p2 : Timetable),
      ctx.workingDays.Nodup → ctx.timeSlots.Nodup → WF (crossover ctx splitIdx p1 p2)) ∧
    (∀ (tt : Timetable) (coin : Bool) (c1 c2 : String × Nat),
      WF tt → WF (mutate tt coin c1 c2)) ∧
    (∀ (tt : Timetable) (mv : NeighborMove), WF tt → WF (generateNeighbor tt mv)) ∧
    (∀ (tt : Timetable) (d : String) (t : Nat) (s1 s2 : Session),
      cellAt tt d t = some s1 → cellAt tt d t = some s2 → s1 = s2) := by
  refine ⟨?_, ?_, WF_mutate, WF_generateNeighbor, ?_⟩
  · intro ctx labReqs lecReqs hd ht
    exact createIndividual_preserves WF_setCell ctx labReqs lecReqs (WF_emptyTimetable ctx hd ht)
  · intro ctx splitIdx p1 p2 hd ht
    exact WF_crossover ctx splitIdx p1 p2 hd ht
  · intro tt d t s1 s2 hc1 hc2
    rw [hc1] at hc2
    injection hc2

/-- Witness for C10 at concrete inputs for each of the five conjuncts. -/
theorem engine_timetable_cells_unique_witness :
    WF (createIndividual ctx3 [] []) ∧
    WF (crossover ctx3 0 t3a t3b) ∧
    WF (mutate tt6 true ("Mon", 540) ("Mon", 585)) ∧
    WF (generateNeighbor t3a (NeighborMove.swapTimeSlots "Mon" 540 585)) ∧
    sess3a = sess3a :=
  ⟨engine_timetable_cells_unique.1 ctx3 [] [] (by decide) (by decide),
   engine_timetable_cells_unique.2.1 ctx3 0 t3a t3b (by decide) (by decide),
   engine_timetable_cells_unique.2.2.1 tt6 true ("Mon", 540) ("Mon", 585) (by decide),
   engine_timetable_cells_unique.2.2.2.1 t3a (NeighborMove.swapTimeSlots "Mon" 540 585)
     (by decide),
   engine_timetable_cells_unique.2.2.2.2 t3a "Mon" 540 sess3a sess3a (by decide) (by decide)⟩

theorem getCount_bump (l : List (String × Nat)) (k' k : String) :
    getCount (bump l k') k = getCount l k + (if k' = k then 1 else 0) := by
  induction l with
  | nil =>
      by_cases h : k' = k
      · simp [bump, getCount, h]
      · simp [bump, getCount, h]
  | cons e rest ih =>
      match e with
      | (k0, n) =>
          simp only [bump]
          by_cases h0 : k0 = k'
          · rw [if_pos h0]
            simp only [getCount]
            by_cases h1 : k0 = k
            · rw [if_pos h1, if_pos h1, if_pos (h0 ▸ h1 : k' = k)]
            · rw [if_neg h1, if_neg h1, if_neg (fun hk => h1 (h0.trans hk)), Nat.add_zero]
          · rw [if_neg h0]
            simp only [getCount]
            by_cases h1 : k0 = k
            · rw [if_pos h1, if_pos h1, if_neg (fun hk => h0 (h1.trans hk.symm)), Nat.add_zero]
            · rw [if_neg h1, if_neg h1, ih]

theorem getCount_foldl_bump (keys : List String) :
    ∀ (acc : List (String × Nat)) (k : String),
      getCount (keys.foldl bump acc) k = getCount acc k + keys.count k := by
  induction keys with
  | nil => intro acc k; simp
  | cons k0 rest ih =>
      intro acc k
      simp only [List.foldl_cons, List.count_cons, ih, getCount_bump]
      by_cases h : k0 = k
      · rw [if_pos h, if_pos (by simp [h])]
        omega
      · rw [if_neg h, if_neg (by simp [h])]
        omega

theorem courseCounts_spec (tt : Timetable) (code : String) :
    getCount (courseCounts tt) code =
      ((occSessions tt).map fun s => s.courseCode).count code := by
  unfold courseCounts
  have hm := List.foldl_map (fun s : Session => s.courseCode) bump (occSessions tt)
    ([] : List (String × Nat))
  rw [← hm, getCount_foldl_bump]
  simp [getCount, List.count]

theorem foldl_add_map {α : Type} (f : α → ℚ) (l : List α) :
    ∀ init : ℚ, l.foldl (fun sc a => sc + f a) init = init + (l.map f).sum := by
  induction l with
  | nil => intro init; simp
  | cons a l ih =>
      intro init
      simp only [List.foldl_cons, List.map_cons, List.sum_cons, ih]
      ring

/-- Claim C8: `_check_course_completion` (which counts courses through a
running dictionary) equals the sum, over all configured courses, of the
per-course completion term applied to the number of occupied cells
bearing that course code. -/
theorem check_course_completion_spec (ctx : OptCtx) (tt : Timetable) :
    checkCourseCompletion ctx tt =
      (ctx.courses.map fun course =>
        completionTermSpec (((occSessions tt).map fun s => s.courseCode).count course.code)
          course.lecturesPerWeek).sum := by
  unfold checkCourseCompletion
  rw [List.foldl_ext _ (fun sc course => sc +
      completionTermSpec (((occSessions tt).map fun s => s.courseCode).count course.code)
        course.lecturesPerWeek)]
  · rw [foldl_add_map (fun course =>
      completionTermSpec (((occSessions tt).map fun s => s.courseCode).count course.code)
        course.lecturesPerWeek) ctx.courses 0]
    rw [zero_add]
  · intro sc course _
    rw [← courseCounts_spec]
    unfold completionTermSpec
    by_cases h1 : getCount (courseCounts tt) course.code = course.lecturesPerWeek
    · simp [h1]
    · by_cases h2 : course.lecturesPerWeek < getCount (courseCounts tt) course.code
      · simp [h1, h2]
      · simp [h1, h2]

theorem checkAll_acc (tt : CTimetable) (cs : List CRec) :
    ∀ acc : List String,
      cs.foldl (fun vs c => if c.isActive then vs ++ checkConstraint tt c else vs) acc =
        acc ++ checkAllConstraints tt cs := by
  induction cs with
  | nil => intro acc; simp [checkAllConstraints]
  | cons c rest ih =>
      intro acc
      simp only [checkAllConstraints, List.foldl_cons] at *
      by_cases h : c.isActive = true
      · rw [if_pos h, if_pos h, ih, ih (([] : List String) ++ checkConstraint tt c)]
        simp
      · rw [if_neg h, if_neg h, ih]

/-- Claim C9, amended: a checker method that *raises* (e.g. a required
parameter missing from a loosely-typed constraint record) causes that
single constraint to contribute exactly one
`"Error checking constraint: ..."` message, while all other constraints
before and after it are still checked normally; `check_all_constraints`
is total (never raises, never aborts the pass).  An unparsable time
string specifically does *not* raise — `_time_to_minutes` coerces it to
0 and the constraint is evaluated rather than skipped (see the
counterexample). -/
theorem checker_error_isolated (tt : CTimetable) (cs1 cs2 : List CRec) (c : CRec) (e : String)
    (hactive : c.isActive = true) (herr : runChecker tt c = Except.error e) :
    checkConstraint tt c = ["Error checking constraint: " ++ c.description] ∧
    checkAllConstraints tt (cs1 ++ c :: cs2) =
      checkAllConstraints tt cs1 ++ ["Error checking constraint: " ++ c.description] ++
        checkAllConstraints tt cs2 := by
  have h1 : checkConstraint tt c = ["Error checking constraint: " ++ c.description] := by
    unfold checkConstraint
    rw [herr]
  refine ⟨h1, ?_⟩
  unfold checkAllConstraints
  rw [List.foldl_append, List.foldl_cons, if_pos hactive]
  rw [checkAll_acc tt cs2, checkAll_acc tt cs1]
  simp [h1, checkAllConstraints]

theorem checker_error_isolated_witness :
    checkConstraint tt9 c9bad = ["Error checking constraint: " ++ c9bad.description] ∧
    checkAllConstraints tt9 ([lunch9] ++ c9bad :: [lunch9]) =
      checkAllConstraints tt9 [lunch9] ++
        ["Error checking constraint: " ++ c9bad.description] ++
        checkAllConstraints tt9 [lunch9] :=
  checker_error_isolated tt9 [lunch9] [lunch9] c9bad "AttributeError" rfl rfl

/-- Counterexample to claim C9 as stated: a lunch-break constraint whose
time parameters are unparsable strings ("noon", "one pm") is *not*
skipped and contributes *no* error message — `_time_to_minutes` maps
both strings to 0 and the constraint is checked normally against the
empty interval `[0, 0)`, yielding no violations at all. -/
theorem unparsable_time_not_skipped :
    timeToMinutes "noon" = 0 ∧ timeToMinutes "one pm" = 0 ∧
    checkConstraint tt9 lunch9 = [] ∧
    checkConstraint tt9 lunch9 ≠ ["Error checking constraint: " ++ lunch9.description] := by
  refine ⟨rfl, rfl, rfl, ?_⟩
  intro h
  have h2 : ([] : List String) = ["Error checking constraint: " ++ lunch9.description] := h
  exact List.noConfusion h2

end Schedulify
